import Mathlib

/-!
# Verification of the migrationvalidationsuite data-migration assistant

Shallow embedding of the repository's pure data-manipulation core:

* `src/payroll/app.py` — `apply_picklist_lookup`, `apply_transformations`,
  `cleanse_dataframe`;
* `src/foundation_data_v2/panels/statistics_panel.py` — `analyze_data_quality`,
  `generate_detective_report`, `analyze_single_record`,
  `analyze_orphaned_relationship_id`;
* `src/config_manager.py` — `save_config`, `load_config`,
  `validate_sample_columns`, `process_uploaded_file`,
  `convert_text_to_template`, `convert_template_to_text`.

A pandas DataFrame is modelled column-major: a list of named columns, each a
list of cells.  A cell is missing (`na`, pandas NaN), a string, or an integer;
the claims under study exercise no float arithmetic.  `astype(str)` renders a
missing cell as the literal string "nan", exactly as pandas does.  Python
string methods (`upper`, `lower`, `title`, `strip`) are modelled over the
ASCII range, which covers every value the claims exercise.  The filesystem is
explicit state: an association list from path to file content.  Exceptions are
modelled with `Option`: `none` where the Python code would raise (or, at a
caught site, take its fallback branch).
-/

/-! ## Cells and Python string primitives -/

/-- A pandas cell: missing (NaN), a string, or an integer. -/
inductive Cell where
  | na
  | str (s : String)
  | int (n : Int)
deriving DecidableEq, Repr

/-- Python `str(value)` as pandas `astype(str)` applies it: NaN renders as the
literal string "nan". -/
def Cell.toStr : Cell → String
  | .na => "nan"
  | .str s => s
  | .int n => toString n

/-- Python `==` between cell values: NaN compares unequal to everything
(including NaN), and values of different types compare unequal. -/
def pyEq : Cell → Cell → Bool
  | .str a, .str b => a = b
  | .int a, .int b => a = b
  | _, _ => false

/-- The whitespace characters stripped by Python `str.strip` (ASCII range). -/
def isPySpace (c : Char) : Bool :=
  c = ' ' || c = '\t' || c = '\n' || c = '\r' || c = '\x0b' || c = '\x0c'

/-- Python `str.strip()` on a character list: drop whitespace from both ends. -/
def pyStripChars (l : List Char) : List Char :=
  ((l.dropWhile isPySpace).reverse.dropWhile isPySpace).reverse

/-- Python `str.strip()`. -/
def pyStrip (s : String) : String := ⟨pyStripChars s.data⟩

/-- Python `str.upper()` (ASCII model). -/
def pyUpper (s : String) : String := ⟨s.data.map Char.toUpper⟩

/-- Python `str.lower()` (ASCII model). -/
def pyLower (s : String) : String := ⟨s.data.map Char.toLower⟩

/-- Python `str.title()` on a character list: a letter that follows a letter is
lowercased, a letter that follows a non-letter is uppercased.  The flag records
whether the previous character was a letter. -/
def pyTitleChars : Bool → List Char → List Char
  | _, [] => []
  | prevAlpha, c :: rest =>
    if c.isAlpha then
      (if prevAlpha then c.toLower else c.toUpper) :: pyTitleChars true rest
    else
      c :: pyTitleChars false rest

/-- Python `str.title()` (ASCII model). -/
def pyTitle (s : String) : String := ⟨pyTitleChars false s.data⟩

/-- Boolean test that `pat` is a prefix of `l` (Python `startswith`, used to
build the substring test below). -/
def charsPrefixOf : List Char → List Char → Bool
  | [], _ => true
  | _ :: _, [] => false
  | p :: ps, c :: cs => p = c && charsPrefixOf ps cs

/-- Boolean test that `pat` occurs as a contiguous substring of `l`: Python's
`pat in s`, and the effect of pandas `Series.str.contains(pat)` on the
regex-metacharacter-free patterns this repository feeds it. -/
def subOccurs (pat : List Char) : List Char → Bool
  | [] => charsPrefixOf pat []
  | c :: t => charsPrefixOf pat (c :: t) || subOccurs pat t

/-! ## DataFrames (column-major) -/

/-- A pandas column: its label, whether its dtype is `object`, and its cells. -/
structure Column where
  name : String
  isObject : Bool
  cells : List Cell
deriving DecidableEq, Repr

/-- A pandas DataFrame, column-major. -/
structure DataFrame where
  cols : List Column
deriving DecidableEq, Repr

/-- Column lookup `df[name]` (first column carrying the label). -/
def DataFrame.getCol? (df : DataFrame) (name : String) : Option Column :=
  df.cols.find? (fun c => c.name = name)

/-- Python `name in df.columns`. -/
def DataFrame.hasCol (df : DataFrame) (name : String) : Bool :=
  df.cols.any (fun c => c.name = name)

/-- Column assignment `df[c.name] = ...`: replace the column in place when the
label exists, otherwise append it on the right, as pandas does. -/
def DataFrame.setCol (df : DataFrame) (c : Column) : DataFrame :=
  if df.hasCol c.name then
    ⟨df.cols.map (fun c0 => if c0.name = c.name then c else c0)⟩
  else
    ⟨df.cols ++ [c]⟩

/-- Number of rows, `len(df)` (0 for a DataFrame without columns). -/
def DataFrame.nrows (df : DataFrame) : Nat :=
  match df.cols with
  | [] => 0
  | c :: _ => c.cells.length

/-- Number of columns, `len(df.columns)`. -/
def DataFrame.ncols (df : DataFrame) : Nat := df.cols.length

/-- Wellformedness: every column has the same number of cells (pandas maintains
this invariant for every real DataFrame). -/
def DataFrame.Wellformed (df : DataFrame) : Prop :=
  ∀ c ∈ df.cols, c.cells.length = df.nrows

/-- The cell of row `i` in column `name` (`row[name]` during `iterrows`). -/
def DataFrame.rowCell (df : DataFrame) (i : Nat) (name : String) : Option Cell :=
  (df.getCol? name).bind (fun c => c.cells.get? i)

/-- Row-major view of the DataFrame: row `i` lists the row's cells in column
order.  Used to model row filtering (`df[mask]`) and `iloc`. -/
def DataFrame.rows (df : DataFrame) : List (List Cell) :=
  (List.range df.nrows).map (fun i => df.cols.filterMap (fun c => c.cells.get? i))

/-! ## `src/payroll/app.py` -/

/-- Function `apply_picklist_lookup(value, picklist_df, column_name)`
(src/payroll/app.py, lines 31–38).  Builds the boolean mask
`picklist_df[column_name] == value`, keeps the matching rows, and returns
`match.iloc[0][1]` — the positionally second entry of the first matching row.
A missing column (KeyError), no second column (IndexError), or an empty match
falls through to returning the original value, as the bare `except` does. -/
def apply_picklist_lookup (value : Cell) (picklist_df : DataFrame)
    (column_name : String) : Cell :=
  match picklist_df.getCol? column_name with
  | none => value
  | some col =>
    match ((col.cells.map (fun c => pyEq c value)).zip picklist_df.rows).filterMap
        (fun br => if br.1 then some br.2 else none) with
    | [] => value
    | r :: _ =>
      match r.get? 1 with
      | some x => x
      | none => value

/-- One column-mapping entry, as read from a `*_column_mapping.json` config
(the fields `apply_transformations` touches; `transformation` holds the
`trans.get("transformation", "None")` result). -/
structure Mapping where
  source_column : String
  destination_column : String
  transformation : String
deriving DecidableEq, Repr

/-- The new destination column computed for one mapping entry by
`apply_transformations` (src/payroll/app.py, lines 42–67).  Every branch reads
`df[src_col]` from the *original* DataFrame; a missing source column raises
KeyError, modelled as `none`.  `dateFmt` stands for the un-modelled pandas
pipeline `pd.to_datetime(·, errors="coerce").dt.strftime('%Y-%m-%d')` of the
"Date Format (YYYY-MM-DD)" branch; the claims hold for every such function. -/
def transformedColumn (dateFmt : List Cell → List Cell)
    (picklists : List (String × DataFrame)) (df : DataFrame) (m : Mapping) :
    Option Column :=
  match df.getCol? m.source_column with
  | none => none
  | some src =>
    let dst := m.destination_column
    if m.transformation = "None" then
      some { src with name := dst }
    else if m.transformation = "UPPERCASE" then
      some ⟨dst, true, src.cells.map (fun c => .str (pyUpper c.toStr))⟩
    else if m.transformation = "lowercase" then
      some ⟨dst, true, src.cells.map (fun c => .str (pyLower c.toStr))⟩
    else if m.transformation = "Trim Whitespace" then
      some ⟨dst, true, src.cells.map (fun c => .str (pyStrip c.toStr))⟩
    else if m.transformation = "Title Case" then
      some ⟨dst, true, src.cells.map (fun c => .str (pyTitle c.toStr))⟩
    else if m.transformation = "Date Format (YYYY-MM-DD)" then
      some ⟨dst, true, dateFmt src.cells⟩
    else if m.transformation = "Lookup Value" && !picklists.isEmpty then
      match picklists.find? (fun p => p.2.hasCol m.source_column) with
      | some p =>
        some ⟨dst, true,
          src.cells.map (fun x => apply_picklist_lookup x p.2 m.source_column)⟩
      | none => some { src with name := dst }
    else
      some { src with name := dst }

/-- Function `apply_transformations(df, mappings, picklists)`
(src/payroll/app.py, lines 40–68): starting from `df.copy()`, assign each
mapping's destination column in order; `none` models the uncaught KeyError on
a missing source column. -/
def apply_transformations (dateFmt : List Cell → List Cell) (df : DataFrame)
    (mappings : List Mapping) (picklists : List (String × DataFrame)) :
    Option DataFrame :=
  mappings.foldlM
    (fun acc m => (transformedColumn dateFmt picklists df m).map acc.setCol) df

/-- Per-cell effect of the cleansing loop body of `cleanse_dataframe`
(src/payroll/app.py, lines 72–76) on an object-dtype column: the trim step
(when enabled) and then the lowercase step (when enabled), each via
`astype(str)`. -/
def cleanseCell (trim lower : Bool) (x : Cell) : Cell :=
  let x1 := if trim then Cell.str (pyStrip x.toStr) else x
  if lower then Cell.str (pyLower x1.toStr) else x1

/-- Function `cleanse_dataframe(df, trim, lower, empty_nan, drop_null)`
(src/payroll/app.py, lines 70–81): trim/lowercase every object-dtype column via
`astype(str)`, then `replace("", np.nan)` over the whole frame, then `dropna()`
of any row containing a missing cell. -/
def cleanse_dataframe (df : DataFrame) (trim lower empty_nan drop_null : Bool) :
    DataFrame :=
  let d1 : DataFrame :=
    ⟨df.cols.map (fun c =>
      if c.isObject then { c with cells := c.cells.map (cleanseCell trim lower) }
      else c)⟩
  let d2 : DataFrame :=
    if empty_nan then
      ⟨d1.cols.map (fun c =>
        { c with cells := c.cells.map (fun x => if x = .str "" then .na else x) })⟩
    else d1
  if drop_null then
    let keep : Nat → Bool := fun i =>
      d2.cols.all (fun c =>
        match c.cells.get? i with
        | some .na => false
        | _ => true)
    ⟨d2.cols.map (fun c =>
      { c with cells := ((c.cells.enum).filter (fun p => keep p.1)).map Prod.snd })⟩
  else d2

/-! ## Association-list stores (dictionaries keyed by strings or integers) -/

/-- Lookup in an association list (Python `d[k]` / `d.get(k)`). -/
def alistLookup {κ α : Type} [DecidableEq κ] (l : List (κ × α)) (k : κ) : Option α :=
  (l.find? (fun p => p.1 = k)).map (fun p => p.2)

/-- Python `k in d`. -/
def alistHas {κ α : Type} [DecidableEq κ] (l : List (κ × α)) (k : κ) : Bool :=
  l.any (fun p => p.1 = k)

/-- Python `d[k] = v`: replace the binding in place when the key exists,
otherwise append it (dict insertion order). -/
def alistPut {κ α : Type} [DecidableEq κ] (l : List (κ × α)) (k : κ) (v : α) :
    List (κ × α) :=
  if alistHas l k then l.map (fun p => if p.1 = k then (k, v) else p)
  else l ++ [(k, v)]

/-! ## `src/foundation_data_v2/panels/statistics_panel.py` — data quality

The metrics record keeps the quantitative fields of the dictionary built by
`analyze_data_quality` (lines 12–69).  Display-only parts are omitted from the
model: `memory_usage_mb` (platform-dependent), `dtypes_summary`, and the
narrative `pattern_analysis` / `outlier_analysis` / `data_consistency`
sub-reports.  Percentages are exact rationals; the Python code additionally
applies `round(·, 2)` for display.  `missing_percentage` is `Option ℚ`:
`none` models the NaN that numpy produces for the division
`missing_stats.sum() / (len(df) * len(df.columns))` when the denominator is 0
(numpy emits a RuntimeWarning and yields NaN instead of raising). -/

/-- Missing-data block of the quality metrics. -/
structure MissingData where
  total_missing_cells : Nat
  missing_percentage : Option ℚ
  columns_with_missing : List (String × Nat)
  completely_empty_columns : List String
  rows_with_missing : Nat
deriving DecidableEq, Repr

/-- Duplicate-analysis block of the quality metrics. -/
structure DuplicateAnalysis where
  duplicate_rows : Nat
  duplicate_percentage : ℚ
  unique_rows : Nat
deriving DecidableEq, Repr

/-- The quality-metrics dictionary of `analyze_data_quality`. -/
structure QualityMetrics where
  dataset_name : String
  total_rows : Nat
  total_columns : Nat
  missing_data : MissingData
  duplicate_analysis : DuplicateAnalysis
deriving DecidableEq, Repr

/-- Count of rows that duplicate an earlier row (`df.duplicated().sum()`;
pandas treats two NaN cells as equal here, as does `Cell` equality). -/
def dupRowCountAux (seen : List (List Cell)) : List (List Cell) → Nat
  | [] => 0
  | r :: t => (if r ∈ seen then 1 else 0) + dupRowCountAux (r :: seen) t

/-- Function `analyze_data_quality(df, df_name)`
(src/foundation_data_v2/panels/statistics_panel.py, lines 12–69),
quantitative core. -/
def analyze_data_quality (df : DataFrame) (df_name : String) : QualityMetrics :=
  let nr := df.nrows
  let nc := df.ncols
  let missingPerCol := df.cols.map (fun c => (c.name, c.cells.countP (fun x => x = .na)))
  let totalMissing := (missingPerCol.map Prod.snd).sum
  let dup := dupRowCountAux [] df.rows
  { dataset_name := df_name
    total_rows := nr
    total_columns := nc
    missing_data :=
      { total_missing_cells := totalMissing
        missing_percentage :=
          if nr * nc = 0 then none else some ((totalMissing : ℚ) / (nr * nc) * 100)
        columns_with_missing := missingPerCol.filter (fun p => 0 < p.2)
        completely_empty_columns := (missingPerCol.filter (fun p => p.2 = nr)).map Prod.fst
        rows_with_missing := df.rows.countP (fun r => r.any (fun x => x = .na)) }
    duplicate_analysis :=
      { duplicate_rows := dup
        duplicate_percentage := if 0 < nr then (dup : ℚ) / nr * 100 else 0
        unique_rows := nr - dup } }

/-! ## `src/foundation_data_v2/panels/statistics_panel.py` — record detective -/

/-- One `hierarchy_structure` entry (`{'level': ..., 'parent': ..., 'children':
...}`); `level = none` models an absent `level` key (the `.get('level',
'Unknown')` default, which never matches an integer level-file key). -/
structure UnitInfo where
  level : Option Int
  parent : Option String
  children : List String
deriving DecidableEq, Repr

/-- One generated output file: its `data` DataFrame (possibly absent) and its
`filename` (`.get('filename', 'Unknown')` when absent). -/
structure FileInfo where
  data : Option DataFrame
  filename : Option String
deriving DecidableEq, Repr

/-- The `generated_output_files` dictionary: level and association files keyed
by level number. -/
structure OutputFiles where
  level_files : List (Int × FileInfo)
  association_files : List (Int × FileInfo)
deriving DecidableEq, Repr

/-- The slice of the Streamlit session state that the detective reads. -/
structure PipelineState where
  source_hrp1000 : Option DataFrame
  source_hrp1001 : Option DataFrame
  generated_output_files : OutputFiles
  hierarchy_structure : List (String × UnitInfo)

/-- The per-record analysis dictionary built by `analyze_single_record` /
`analyze_orphaned_relationship_id`.  The purely narrative fields
(`explanation`, `technical_details`, `recommendations`, `root_cause`,
`how_to_fix`) are UI prose and are omitted from the model. -/
structure RecordAnalysis where
  object_id : String
  unit_name : Cell
  source_status : Cell
  status : String
  appears_in : List String
  missing_from : List String
  issue_type : Option String
  severity : String
deriving DecidableEq, Repr

/-- Rendering of `assigned_level` inside message strings ('Unknown' when the
`level` key is absent). -/
def levelToStr : Option Int → String
  | some n => toString n
  | none => "Unknown"

/-- The `appears_in` entry recorded for a level file. -/
def levelFileEntry (lvl : Int) (fname : String) : String :=
  "Level " ++ toString lvl ++ " file (" ++ fname ++ ")"

/-- The `appears_in` entry recorded for an association file. -/
def assocFileEntry (lvl : Int) (fname : String) : String :=
  "Association Level " ++ toString lvl ++ " file (" ++ fname ++ ")"

/-- The scan `any(level_data[col].astype(str).str.contains(object_id,
na=False).any() for col in level_data.columns)`: does the id occur as a
substring of the string form of any cell?  (`astype(str)` turns NaN into
"nan" before the scan, so `na=False` is moot.) -/
def dataContainsId (d : DataFrame) (object_id : String) : Bool :=
  d.cols.any (fun c => c.cells.any (fun cell => subOccurs object_id.data cell.toStr.data))

/-- The level-file probe of `analyze_single_record` (lines 453–465): when the
assigned level exists in `level_files` with non-None data, scan it for the
Object ID and record the `appears_in` entry on a hit. -/
def levelProbe (object_id : String) (output_files : OutputFiles)
    (unit_info : UnitInfo) : Bool × List String :=
  match unit_info.level with
  | none => (false, [])
  | some lvl =>
    match alistLookup output_files.level_files lvl with
    | none => (false, [])
    | some fi =>
      match fi.data with
      | none => (false, [])
      | some d =>
        if dataContainsId d object_id then
          (true, [levelFileEntry lvl (fi.filename.getD "Unknown")])
        else (false, [])

/-- The relationship test `hrp1001_df[col].astype(str).eq(object_id).any()`
guarded by column existence (`analyze_single_record`, lines 475–476). -/
def idInColumn (df : Option DataFrame) (colName : String) (object_id : String) :
    Bool :=
  match df with
  | some h =>
    match h.getCol? colName with
    | some c => c.cells.any (fun x => x.toStr = object_id)
    | none => false
  | none => false

/-- The association-file scan of `analyze_single_record` (lines 482–491): the
inner column loop breaks, the level loop continues, so one `appears_in` entry
is appended per association level containing the id. -/
def assocScan (object_id : String) (files : List (Int × FileInfo)) :
    Bool × List String :=
  files.foldl
    (fun acc p =>
      match p.2.data with
      | some d =>
        if dataContainsId d object_id then
          (true, acc.2 ++ [assocFileEntry p.1 (p.2.filename.getD "Unknown")])
        else acc
      | none => acc)
    (false, [])

/-- Function `analyze_single_record(object_id, unit_name, status, hrp1000_df,
hrp1001_df, output_files, hierarchy_structure)`
(src/foundation_data_v2/panels/statistics_panel.py, lines 423–555). -/
def analyze_single_record (object_id : String) (unit_name source_status : Cell)
    (hrp1000_df hrp1001_df : Option DataFrame) (output_files : OutputFiles)
    (hierarchy_structure : List (String × UnitInfo)) : RecordAnalysis :=
  match alistLookup hierarchy_structure object_id with
  | some unit_info =>
    let probe := levelProbe object_id output_files unit_info
    let has_relationships := idInColumn hrp1001_df "Source ID" object_id
      || idInColumn hrp1001_df "Target object ID" object_id
    let assoc := if has_relationships then
        assocScan object_id output_files.association_files
      else (false, [])
    if probe.1 then
      let warning := has_relationships && !assoc.1
      { object_id := object_id
        unit_name := unit_name
        source_status := source_status
        status := if warning then "WARNING" else "SUCCESS"
        appears_in := probe.2 ++ assoc.2
        missing_from := if warning then ["Some association files"] else []
        issue_type := none
        severity := "LOW" }
    else
      { object_id := object_id
        unit_name := unit_name
        source_status := source_status
        status := "ERROR"
        appears_in := probe.2 ++ assoc.2
        missing_from := ["Level " ++ levelToStr unit_info.level ++ " output file"]
        issue_type := some "MISSING_FROM_OUTPUT"
        severity := "HIGH" }
  | none =>
    { object_id := object_id
      unit_name := unit_name
      source_status := source_status
      status := "ERROR"
      appears_in := []
      missing_from := ["Hierarchy structure", "All output files"]
      issue_type := some "NOT_IN_HIERARCHY"
      severity := "HIGH" }

/-- Function `analyze_orphaned_relationship_id(object_id, id_type, hrp1000_df,
hrp1001_df)` (src/foundation_data_v2/panels/statistics_panel.py, lines
557–601). -/
def analyze_orphaned_relationship_id (object_id : String) (id_type : String)
    (hrp1000_df hrp1001_df : Option DataFrame) : RecordAnalysis :=
  let relationship_count : Nat :=
    match hrp1001_df with
    | some h =>
      (match h.getCol? "Source ID" with
       | some c => c.cells.countP (fun x => x.toStr = object_id)
       | none => 0) +
      (match h.getCol? "Target object ID" with
       | some c => c.cells.countP (fun x => x.toStr = object_id)
       | none => 0)
    | none => 0
  { object_id := object_id
    unit_name := .str "Unknown (not in HRP1000)"
    source_status := .str "Missing"
    status := "ERROR"
    appears_in := ["HRP1001 relationships (" ++ toString relationship_count ++ " times)"]
    missing_from := ["HRP1000 source data"]
    issue_type := some "ORPHANED_RELATIONSHIP"
    severity := "CRITICAL" }

/-- The three dictionaries the detective report accumulates. -/
structure RecordBuckets where
  all_records : List (String × RecordAnalysis)
  successful : List (String × RecordAnalysis)
  issues : List (String × RecordAnalysis)
deriving Repr

/-- Recording one HRP1000 record: store it in `all_records` and categorize it
into `successful_transformations` or `issues_found` by its status. -/
def bucketAddMain (b : RecordBuckets) (k : String) (a : RecordAnalysis) :
    RecordBuckets :=
  { all_records := alistPut b.all_records k a
    successful := if a.status = "SUCCESS" then alistPut b.successful k a else b.successful
    issues := if a.status = "SUCCESS" then b.issues else alistPut b.issues k a }

/-- Recording one orphaned relationship id: always an issue. -/
def bucketAddOrphan (b : RecordBuckets) (k : String) (a : RecordAnalysis) :
    RecordBuckets :=
  { all_records := alistPut b.all_records k a
    successful := b.successful
    issues := alistPut b.issues k a }

/-- Per-row extraction of the HRP1000 loop: `str(row['Object ID'])`,
`row.get('Name', 'Unknown')`, `row.get('Planning status', 'Unknown')`. -/
def hrp1000RowData (df : DataFrame) : List (String × Cell × Cell) :=
  (List.range df.nrows).map (fun i =>
    (((df.rowCell i "Object ID").getD .na).toStr,
     (df.rowCell i "Name").getD (.str "Unknown"),
     (df.rowCell i "Planning status").getD (.str "Unknown")))

/-- The detective report returned by `generate_detective_report(state)`
(src/foundation_data_v2/panels/statistics_panel.py, lines 349–421); the
`analysis_metadata` counters are inlined as fields
(`issue_categories` and the wall-clock timestamp are omitted). -/
structure DetectiveReport where
  all_records : List (String × RecordAnalysis)
  successful_transformations : List (String × RecordAnalysis)
  issues_found : List (String × RecordAnalysis)
  total_records_analyzed : Nat
  success_count : Nat
  issue_count : Nat
  success_rate : ℚ
deriving Repr

/-- One iteration of the HRP1000 loop of `generate_detective_report`
(lines 368–386): analyze the record and categorize it. -/
def detectiveMainStep (st : PipelineState) (b : RecordBuckets)
    (t : String × Cell × Cell) : RecordBuckets :=
  bucketAddMain b t.1
    (analyze_single_record t.1 t.2.1 t.2.2 st.source_hrp1000 st.source_hrp1001
      st.generated_output_files st.hierarchy_structure)

/-- One iteration of the HRP1001 loop of `generate_detective_report`
(lines 389–407): record the Source ID and the Target object ID as orphans
when they are non-empty and not yet present in `all_records`. -/
def detectiveOrphanStep (st : PipelineState) (df : DataFrame)
    (b : RecordBuckets) (i : Nat) : RecordBuckets :=
  let source_id := ((df.rowCell i "Source ID").map Cell.toStr).getD ""
  let target_id := ((df.rowCell i "Target object ID").map Cell.toStr).getD ""
  let b1 :=
    if source_id ≠ "" && !(alistHas b.all_records source_id) then
      bucketAddOrphan b source_id
        (analyze_orphaned_relationship_id source_id "Source ID"
          st.source_hrp1000 st.source_hrp1001)
    else b
  if target_id ≠ "" && !(alistHas b1.all_records target_id) then
    bucketAddOrphan b1 target_id
      (analyze_orphaned_relationship_id target_id "Target object ID"
        st.source_hrp1000 st.source_hrp1001)
  else b1

/-- The HRP1000 loop of `generate_detective_report` (runs when the source is
loaded and carries the Object ID column). -/
def detectivePhase1 (st : PipelineState) : RecordBuckets :=
  match st.source_hrp1000 with
  | some df =>
    if df.hasCol "Object ID" then
      (hrp1000RowData df).foldl (detectiveMainStep st) ⟨[], [], []⟩
    else ⟨[], [], []⟩
  | none => ⟨[], [], []⟩

/-- The HRP1001 orphan loop of `generate_detective_report`. -/
def detectivePhase2 (st : PipelineState) (b : RecordBuckets) : RecordBuckets :=
  match st.source_hrp1001 with
  | some df => (List.range df.nrows).foldl (detectiveOrphanStep st df) b
  | none => b

/-- Function `generate_detective_report(state)`
(src/foundation_data_v2/panels/statistics_panel.py, lines 349–421). -/
def generate_detective_report (st : PipelineState) : DetectiveReport :=
  let b2 := detectivePhase2 st (detectivePhase1 st)
  { all_records := b2.all_records
    successful_transformations := b2.successful
    issues_found := b2.issues
    total_records_analyzed := b2.all_records.length
    success_count := b2.successful.length
    issue_count := b2.issues.length
    success_rate :=
      if b2.all_records.length = 0 then 0
      else (b2.successful.length : ℚ) / b2.all_records.length * 100 }

/-- The partition invariant `generate_detective_report` maintains over its
three dictionaries.  `keys` are the first components. -/
def BucketInv (b : RecordBuckets) : Prop :=
  (b.all_records.map Prod.fst).Nodup
  ∧ (∀ k, k ∈ b.successful.map Prod.fst → k ∈ b.all_records.map Prod.fst)
  ∧ (∀ k, k ∈ b.issues.map Prod.fst → k ∈ b.all_records.map Prod.fst)
  ∧ (∀ k, ¬(k ∈ b.successful.map Prod.fst ∧ k ∈ b.issues.map Prod.fst))
  ∧ (∀ k, k ∈ b.all_records.map Prod.fst →
      k ∈ b.successful.map Prod.fst ∨ k ∈ b.issues.map Prod.fst)
  ∧ b.all_records.length = b.successful.length + b.issues.length
  ∧ (∀ p ∈ b.successful, p.2.status = "SUCCESS")
  ∧ (∀ p ∈ b.issues, p.2.status ≠ "SUCCESS")

/-! ## JSON documents (`json.dump` / `json.load` in `src/config_manager.py`)

JSON values as the configuration code produces and consumes them: null,
booleans, integers, strings, arrays, objects.  (The config payloads are lists
of string-valued dicts; JSON floats are outside the model, so the parser reads
integer numerals only.)  The printer emits a compact document — `json.dump`'s
`indent=2` only adds whitespace, which the parser skips.  Strings are escaped
for `"` and `\`; the parser additionally accepts the other single-character
escapes `json.loads` knows (but not `\uXXXX`). -/

/-- A JSON value. -/
inductive JValue where
  | null
  | bool (b : Bool)
  | int (n : Int)
  | str (s : String)
  | arr (elems : List JValue)
  | obj (members : List (String × JValue))
deriving Repr

/-- The `\x7b` character (left curly bracket). -/
def jlbrace : Char := Char.ofNat 123

/-- The `\x7d` character (right curly bracket). -/
def jrbrace : Char := Char.ofNat 125

/-- Escape one character of a JSON string. -/
def jescChar (c : Char) : List Char :=
  if c = '"' || c = '\\' then ['\\', c] else [c]

/-- Escape a JSON string body. -/
def jescape (l : List Char) : List Char :=
  l.foldr (fun c acc => jescChar c ++ acc) []

/-- Decimal digit characters of a natural number, most significant first. -/
def natChars (n : Nat) : List Char :=
  if n < 10 then [Char.ofNat (48 + n)]
  else natChars (n / 10) ++ [Char.ofNat (48 + n % 10)]
termination_by n
decreasing_by exact Nat.div_lt_self (by omega) (by omega)

/-- Character rendering of an integer numeral. -/
def intChars (n : Int) : List Char :=
  if n < 0 then '-' :: natChars n.natAbs else natChars n.natAbs

mutual

/-- Print a JSON value to characters. -/
def jprint : JValue → List Char
  | .null => "null".data
  | .bool b => if b then "true".data else "false".data
  | .int n => intChars n
  | .str s => '"' :: (jescape s.data ++ ['"'])
  | .arr xs => '[' :: (jprintElems xs ++ [']'])
  | .obj ms => jlbrace :: (jprintMembers ms ++ [jrbrace])

/-- Print array elements, comma-separated. -/
def jprintElems : List JValue → List Char
  | [] => []
  | [x] => jprint x
  | x :: y :: t => jprint x ++ ',' :: jprintElems (y :: t)

/-- Print object members, comma-separated. -/
def jprintMembers : List (String × JValue) → List Char
  | [] => []
  | [kv] => '"' :: (jescape kv.1.data ++ ['"', ':']) ++ jprint kv.2
  | kv :: m :: t =>
    ('"' :: (jescape kv.1.data ++ ['"', ':']) ++ jprint kv.2) ++ ',' :: jprintMembers (m :: t)

end

/-- JSON whitespace. -/
def jIsWs (c : Char) : Bool := c = ' ' || c = '\t' || c = '\n' || c = '\r'

/-- Skip JSON whitespace. -/
def jskipWs (l : List Char) : List Char := l.dropWhile jIsWs

/-- Undo one single-character escape. -/
def junesc (c : Char) : Option Char :=
  if c = '"' || c = '\\' || c = '/' then some c
  else if c = 'n' then some '\n'
  else if c = 't' then some '\t'
  else if c = 'r' then some '\r'
  else if c = 'b' then some '\x08'
  else if c = 'f' then some '\x0c'
  else none

/-- Parse a JSON string body after the opening quote. -/
def jparseStr (acc : List Char) : List Char → Option (String × List Char)
  | [] => none
  | c :: rest =>
    if c = '"' then some (⟨acc.reverse⟩, rest)
    else if c = '\\' then
      match rest with
      | [] => none
      | e :: rest2 =>
        match junesc e with
        | some x => jparseStr (x :: acc) rest2
        | none => none
    else jparseStr (c :: acc) rest

/-- Numeric value of a digit character. -/
def jdigitVal (c : Char) : Nat := c.toNat - 48

/-- Parse a run of decimal digits into the accumulator. -/
def jparseNatAcc (acc : Nat) : List Char → Nat × List Char
  | [] => (acc, [])
  | c :: rest =>
    if c.isDigit then jparseNatAcc (acc * 10 + jdigitVal c) rest else (acc, c :: rest)

mutual

/-- Parse one JSON value (fuel-bounded recursion). -/
def jparse (fuel : Nat) (l : List Char) : Option (JValue × List Char) :=
  match fuel with
  | 0 => none
  | fuel + 1 =>
    match jskipWs l with
    | [] => none
    | c :: rest =>
      if c = '"' then (jparseStr [] rest).map (fun p => (.str p.1, p.2))
      else if c = '[' then
        match jskipWs rest with
        | [] => none
        | c2 :: r3 =>
          if c2 = ']' then some (.arr [], r3)
          else (jparseElems fuel (c2 :: r3)).map (fun p => (.arr p.1, p.2))
      else if c = jlbrace then
        match jskipWs rest with
        | [] => none
        | c2 :: r3 =>
          if c2 = jrbrace then some (.obj [], r3)
          else (jparseMembers fuel (c2 :: r3)).map (fun p => (.obj p.1, p.2))
      else if c = 'n' then
        match rest with
        | 'u' :: 'l' :: 'l' :: r => some (.null, r)
        | _ => none
      else if c = 't' then
        match rest with
        | 'r' :: 'u' :: 'e' :: r => some (.bool true, r)
        | _ => none
      else if c = 'f' then
        match rest with
        | 'a' :: 'l' :: 's' :: 'e' :: r => some (.bool false, r)
        | _ => none
      else if c = '-' then
        match rest with
        | d :: _ =>
          if d.isDigit then
            let p := jparseNatAcc 0 rest
            some (.int (-(p.1 : Int)), p.2)
          else none
        | [] => none
      else if c.isDigit then
        let p := jparseNatAcc 0 (c :: rest)
        some (.int (p.1 : Int), p.2)
      else none

/-- Parse one or more comma-separated array elements up to `]`. -/
def jparseElems (fuel : Nat) (l : List Char) : Option (List JValue × List Char) :=
  match fuel with
  | 0 => none
  | fuel + 1 =>
    match jparse fuel l with
    | none => none
    | some (v, r) =>
      match jskipWs r with
      | ',' :: r2 => (jparseElems fuel r2).map (fun p => (v :: p.1, p.2))
      | ']' :: r2 => some ([v], r2)
      | _ => none

/-- Parse one or more comma-separated object members up to the closing
bracket. -/
def jparseMembers (fuel : Nat) (l : List Char) :
    Option (List (String × JValue) × List Char) :=
  match fuel with
  | 0 => none
  | fuel + 1 =>
    match jskipWs l with
    | [] => none
    | c :: r =>
      if c = '"' then
        match jparseStr [] r with
        | none => none
        | some (k, r1) =>
          match jskipWs r1 with
          | ':' :: r2 =>
            match jparse fuel r2 with
            | none => none
            | some (v, r3) =>
              match jskipWs r3 with
              | [] => none
              | c4 :: r4 =>
                if c4 = ',' then
                  (jparseMembers fuel r4).map (fun p => ((k, v) :: p.1, p.2))
                else if c4 = jrbrace then some ([(k, v)], r4)
                else none
          | _ => none
      else none

end

/-- Parse a complete JSON document (`json.loads`): one value, then nothing but
trailing whitespace. -/
def jparseDoc (s : String) : Option JValue :=
  match jparse (s.data.length + 1) s.data with
  | some (v, r) => if jskipWs r = [] then some v else none
  | none => none

/-- Continuations at which a digit run has certainly ended: the head of the
remaining input, if any, is not a digit, so `jparseNatAcc` stops exactly at the
boundary.  Every delimiter the printer emits after a numeral satisfies this. -/
def jdelim (rest : List Char) : Prop :=
  ∀ c, rest.head? = some c → c.isDigit = false

/-! ## `src/config_manager.py` — configuration persistence -/

/-- The `configs/{config_type}_config.json` path. -/
def configPath (config_type : String) : String :=
  "configs/" ++ config_type ++ "_config.json"

/-- Function `save_config(config_type, config_data)` (src/config_manager.py,
lines 99–113) over an explicit path→content store.  The temp-file write plus
atomic rename collapses to one store update; `json.dump` of a `JValue` cannot
raise, so the `except` branch is unreachable. -/
def save_config (fs : List (String × String)) (config_type : String)
    (config_data : JValue) : List (String × String) :=
  alistPut fs (configPath config_type) ⟨jprint config_data⟩

/-- Function `load_config(config_type)` (src/config_manager.py, lines
115–136): `none` models both `return None` and a caught exception.  For the
`level`/`association` types a string payload is decoded a second time
(`json.loads(data)`; a decode failure returns None), and a non-list result
returns None. -/
def load_config (fs : List (String × String)) (config_type : String) :
    Option JValue :=
  match alistLookup fs (configPath config_type) with
  | none => none
  | some content =>
    match jparseDoc content with
    | none => none
    | some data =>
      if config_type = "level" || config_type = "association" then
        match (match data with
               | .str s => jparseDoc s
               | d => some d) with
        | none => none
        | some d =>
          match d with
          | .arr xs => some (.arr xs)
          | _ => none
      else some data

/-! ## `src/config_manager.py` — sample upload validation -/

/-- The `source_samples/{type}_sample.csv` path. -/
def samplePath (source_file_type : String) : String :=
  "source_samples/" ++ source_file_type ++ "_sample.csv"

/-- The `required_columns` table of `validate_sample_columns`
(src/config_manager.py, lines 140–143); `.get(source_file, [])` yields `[]`
for any other source type. -/
def required_columns (source_file : String) : List String :=
  if source_file = "HRP1000" then ["Object ID", "Name", "Start date"]
  else if source_file = "HRP1001" then ["Source ID", "Target object ID", "Start date"]
  else []

/-- Function `validate_sample_columns(source_file, sample_df)`
(src/config_manager.py, lines 138–147).  The model lists the missing columns
in table order where Python formats an (unordered) set into the message; the
claims use only the Boolean verdict. -/
def validate_sample_columns (source_file : String) (sample_df : DataFrame) :
    Bool × String :=
  let missing := (required_columns source_file).filter
    (fun c => !(sample_df.hasCol c))
  if missing.isEmpty then (true, "All required columns present")
  else (false, "Missing required columns: " ++ String.intercalate ", " missing)

/-- Result of processing an upload: the sample store afterwards, and the
`st.error` message when one was shown. -/
structure UploadResult where
  fs : List (String × DataFrame)
  error : Option String
deriving Repr

/-- Function `process_uploaded_file(uploaded_file, source_file_type)`
(src/config_manager.py, lines 149–181) over an explicit sample store.  The
input is the DataFrame produced by `read_excel`/`read_csv` (already truncated
to `MAX_SAMPLE_ROWS`); `none` models a read that raised, which the enclosing
`except` turns into an error with no store change. -/
def process_uploaded_file (fs : List (String × DataFrame))
    (uploaded : Option DataFrame) (source_file_type : String) : UploadResult :=
  match uploaded with
  | none => { fs := fs, error := some "Error processing file" }
  | some df =>
    let v := validate_sample_columns source_file_type df
    if v.1 then
      { fs := alistPut fs (samplePath source_file_type) df, error := none }
    else
      { fs := fs, error := some v.2 }

/-! ## `src/config_manager.py` — template text conversion -/

/-- One destination-template row; `description = none` models a dict without
the `description` key (`item.get('description', '')` supplies `""`). -/
structure TemplateEntry where
  target_column1 : String
  target_column2 : String
  description : Option String
deriving DecidableEq, Repr

/-- Python `s.split(sep)` for a one-character separator (never returns an
empty list; splitting the empty string yields `[""]`). -/
def splitChars (sep : Char) : List Char → List (List Char)
  | [] => [[]]
  | c :: t =>
    if c = sep then [] :: splitChars sep t
    else (c :: (splitChars sep t).headD []) :: (splitChars sep t).tail

/-- Python `s.split(sep)` on strings. -/
def pySplit (sep : Char) (s : String) : List String :=
  (splitChars sep s.data).map (fun l => ⟨l⟩)

/-- Python `sep.join(items)` for a one-character separator. -/
def joinWith (sep : Char) : List String → List Char
  | [] => []
  | [s] => s.data
  | s :: t :: r => s.data ++ sep :: joinWith sep (t :: r)

/-- The comprehension filter `part.strip() ... if part.strip()` used by both
stages of `convert_text_to_template`: the stripped string when it is
non-empty. -/
def stripNonEmpty (s : String) : Option String :=
  if pyStrip s = "" then none else some (pyStrip s)

/-- One line of `convert_text_to_template`: split on commas, strip and drop
empty parts, and build an entry when at least two parts remain
(`parts[2] if len(parts) > 2 else ""` supplies the description). -/
def templateParseLine (line : String) : Option TemplateEntry :=
  match (pySplit ',' line).filterMap stripNonEmpty with
  | p0 :: p1 :: rest =>
    some { target_column1 := p0, target_column2 := p1,
           description := some (rest.headD "") }
  | _ => none

/-- Function `convert_text_to_template(text_input)` (src/config_manager.py,
lines 183–195). -/
def convert_text_to_template (text_input : String) : List TemplateEntry :=
  ((pySplit '\n' text_input).filterMap stripNonEmpty).filterMap templateParseLine

/-- One line of `convert_template_to_text`:
`f"{item['target_column1']},{item['target_column2']},{item.get('description', '')}"`. -/
def templateLine (item : TemplateEntry) : String :=
  item.target_column1 ++ "," ++ item.target_column2 ++ "," ++ item.description.getD ""

/-- Function `convert_template_to_text(template)` (src/config_manager.py,
lines 197–202). -/
def convert_template_to_text (template : List TemplateEntry) : String :=
  ⟨joinWith '\n' (template.map templateLine)⟩

/-- Field hygiene assumed by claim C7: no commas, no newlines, and no leading
or trailing whitespace. -/
def cleanFieldB (s : String) : Bool :=
  s.data.all (fun c => !(c = ',' || c = '\n')) &&
  (match s.data.head? with | some c => !isPySpace c | none => true) &&
  (match s.data.getLast? with | some c => !isPySpace c | none => true)

/-! ## Specification-side definitions

These definitions transcribe a claim's wording (rather than the code) and are
used only on the specification side of refinement statements. -/

/-- Index of the first element satisfying `p` (spec-side helper). -/
def firstIdxWhere {α : Type} (p : α → Bool) : List α → Option Nat
  | [] => none
  | x :: t => if p x then some 0 else (firstIdxWhere p t).map (· + 1)

/-- Claim C4's description of the picklist lookup: the entry in the picklist's
second column at the first row whose `column_name` cell equals the value, and
the original value when no row matches, the column is absent, or the lookup
cannot be completed. -/
def picklistLookupSpec (value : Cell) (picklist_df : DataFrame)
    (column_name : String) : Cell :=
  match picklist_df.getCol? column_name with
  | none => value
  | some col =>
    match firstIdxWhere (fun c => pyEq c value) col.cells with
    | none => value
    | some i =>
      match picklist_df.cols.get? 1 with
      | none => value
      | some c2 => (c2.cells.get? i).getD value

/-- Per-column effect of `cleanse_dataframe` when `drop_null` is off: the
object-dtype trim/lower loop followed by the `replace("", np.nan)` step. -/
def cleanseColumn (trim lower empty_nan : Bool) (c : Column) : Column :=
  let c1 := if c.isObject then
    { c with cells := c.cells.map (cleanseCell trim lower) } else c
  if empty_nan then
    { c1 with cells := c1.cells.map (fun x => if x = .str "" then .na else x) }
  else c1

/-! ## Lemmas about column lookup and assignment -/

theorem find?_name_replace (c : Column) :
    ∀ l : List Column, l.any (fun c0 => c0.name = c.name) = true →
      (l.map (fun c0 => if c0.name = c.name then c else c0)).find?
        (fun x => x.name = c.name) = some c := by
  intro l
  induction l with
  | nil => intro h; simp at h
  | cons c0 t ih =>
    intro h
    by_cases h0 : c0.name = c.name
    · simp [List.find?_cons, h0]
    · simp only [List.map_cons, if_neg h0, List.find?_cons]
      have hd : (decide (c0.name = c.name)) = false := by simp [h0]
      rw [hd]
      apply ih
      simpa [h0] using h

theorem find?_name_append (c : Column) :
    ∀ l : List Column, l.any (fun c0 => c0.name = c.name) = false →
      (l ++ [c]).find? (fun x => x.name = c.name) = some c := by
  intro l h
  rw [List.find?_append]
  have hnone : l.find? (fun x => x.name = c.name) = none := by
    rw [List.find?_eq_none]
    intro x hx hc
    have ht : l.any (fun c0 => c0.name = c.name) = true :=
      List.any_eq_true.mpr ⟨x, hx, hc⟩
    rw [h] at ht
    exact absurd ht (by simp)
  rw [hnone]
  simp [List.find?_cons]

theorem getCol?_setCol_self (df : DataFrame) (c : Column) :
    (df.setCol c).getCol? c.name = some c := by
  unfold DataFrame.setCol
  by_cases h : df.hasCol c.name
  · rw [if_pos h]
    exact find?_name_replace c df.cols h
  · rw [if_neg h]
    exact find?_name_append c df.cols (by simpa [DataFrame.hasCol] using h)

theorem find?_name_replace_ne (c : Column) (n : String) (h : n ≠ c.name) :
    ∀ l : List Column,
      (l.map (fun c0 => if c0.name = c.name then c else c0)).find?
        (fun x => x.name = n) = l.find? (fun x => x.name = n) := by
  intro l
  induction l with
  | nil => rfl
  | cons c0 t ih =>
    by_cases h0 : c0.name = c.name
    · have hx : ¬ (c.name = n) := fun e => h e.symm
      have hy : ¬ (c0.name = n) := by rw [h0]; exact hx
      simp [List.find?_cons, h0, hx, hy, ih]
    · simp only [List.map_cons, if_neg h0, List.find?_cons]
      by_cases hn : c0.name = n
      · simp [hn]
      · simp [hn, ih]

theorem getCol?_setCol_ne (df : DataFrame) (c : Column) (n : String)
    (h : n ≠ c.name) : (df.setCol c).getCol? n = df.getCol? n := by
  unfold DataFrame.setCol
  by_cases hc : df.hasCol c.name
  · rw [if_pos hc]
    exact find?_name_replace_ne c n h df.cols
  · rw [if_neg hc]
    show (df.cols ++ [c]).find? _ = _
    rw [List.find?_append]
    have : [c].find? (fun x => x.name = n) = none := by
      have : ¬ (c.name = n) := fun e => h e.symm
      simp [List.find?_cons, this]
    rw [this]
    simp [DataFrame.getCol?]

theorem transformedColumn_name (dateFmt : List Cell → List Cell)
    (picklists : List (String × DataFrame)) (df : DataFrame) (m : Mapping)
    (col : Column) (h : transformedColumn dateFmt picklists df m = some col) :
    col.name = m.destination_column := by
  unfold transformedColumn at h
  cases hs : df.getCol? m.source_column with
  | none => rw [hs] at h; exact absurd h (by simp)
  | some src =>
    rw [hs] at h
    simp only at h
    repeat' split at h
    all_goals (cases h; rfl)

theorem apply_transformations_frame_aux (dateFmt : List Cell → List Cell)
    (picklists : List (String × DataFrame)) (df : DataFrame) :
    ∀ (mappings : List Mapping) (acc out : DataFrame),
      mappings.foldlM
        (fun a m => (transformedColumn dateFmt picklists df m).map a.setCol) acc
        = some out →
      ∀ n : String, (∀ m ∈ mappings, n ≠ m.destination_column) →
        out.getCol? n = acc.getCol? n := by
  intro mappings
  induction mappings with
  | nil =>
    intro acc out h n _
    simp only [List.foldlM_nil] at h
    cases h
    rfl
  | cons m rest ih =>
    intro acc out h n hn
    rw [List.foldlM_cons] at h
    cases ht : transformedColumn dateFmt picklists df m with
    | none => rw [ht] at h; simp at h
    | some col =>
      rw [ht] at h
      simp only [Option.map_some', Option.some_bind] at h
      have hrec := ih (acc.setCol col) out h n
        (fun m' hm' => hn m' (List.mem_cons_of_mem _ hm'))
      rw [hrec]
      apply getCol?_setCol_ne
      rw [transformedColumn_name dateFmt picklists df m col ht]
      exact hn m (List.mem_cons_self _ _)

/-- Claim C9: apply_transformations only ever assigns destination columns:
whenever it returns a DataFrame (no mapping raised on a missing source
column), every column whose name is not some mapping's destination_column is
the corresponding input column, unchanged.  The input DataFrame itself is
untouched: the embedding is pure, mirroring the `df.copy()` the function
mutates instead of its argument. -/
theorem apply_transformations_frame (dateFmt : List Cell → List Cell)
    (df : DataFrame) (mappings : List Mapping)
    (picklists : List (String × DataFrame)) (out : DataFrame)
    (h : apply_transformations dateFmt df mappings picklists = some out)
    (n : String) (hn : n ∉ mappings.map (fun m => m.destination_column)) :
    out.getCol? n = df.getCol? n := by
  apply apply_transformations_frame_aux dateFmt picklists df mappings df out h n
  intro m hm he
  exact hn (he ▸ List.mem_map_of_mem _ hm)

/-- Witness for C9 at a concrete input: an UPPERCASE mapping from column "a"
to column "b" leaves column "a" untouched. -/
theorem apply_transformations_frame_witness :
    apply_transformations (fun l => l) ⟨[⟨"a", true, [.str "x"]⟩]⟩
        [⟨"a", "b", "UPPERCASE"⟩] []
      = some ⟨[⟨"a", true, [.str "x"]⟩, ⟨"b", true, [.str "X"]⟩]⟩
    ∧ (⟨[⟨"a", true, [.str "x"]⟩, ⟨"b", true, [.str "X"]⟩]⟩ : DataFrame).getCol? "a"
      = (⟨[⟨"a", true, [.str "x"]⟩]⟩ : DataFrame).getCol? "a" :=
  ⟨by decide,
   apply_transformations_frame (fun l => l) ⟨[⟨"a", true, [.str "x"]⟩]⟩
     [⟨"a", "b", "UPPERCASE"⟩] []
     ⟨[⟨"a", true, [.str "x"]⟩, ⟨"b", true, [.str "X"]⟩]⟩ (by decide) "a" (by decide)⟩

/-- Claim C1: apply_transformations computes each mapping's destination column
from its source column by element-wise string substitution: when the input
DataFrame contains the source column, 'UPPERCASE' yields the string form of
each value uppercased, 'lowercase' lowercased, 'Title Case' title-cased,
'Trim Whitespace' stripped of leading/trailing whitespace, and 'None' or any
transformation type outside the library copies the source column to the
destination unchanged. -/
theorem apply_transformations_elementwise
    (dateFmt : List Cell → List Cell) (picklists : List (String × DataFrame))
    (df : DataFrame) (m : Mapping) (src : Column)
    (hsrc : df.getCol? m.source_column = some src) :
    (m.transformation = "UPPERCASE" →
      (apply_transformations dateFmt df [m] picklists).bind
          (fun o => o.getCol? m.destination_column)
        = some ⟨m.destination_column, true,
            src.cells.map (fun c => .str (pyUpper c.toStr))⟩) ∧
    (m.transformation = "lowercase" →
      (apply_transformations dateFmt df [m] picklists).bind
          (fun o => o.getCol? m.destination_column)
        = some ⟨m.destination_column, true,
            src.cells.map (fun c => .str (pyLower c.toStr))⟩) ∧
    (m.transformation = "Title Case" →
      (apply_transformations dateFmt df [m] picklists).bind
          (fun o => o.getCol? m.destination_column)
        = some ⟨m.destination_column, true,
            src.cells.map (fun c => .str (pyTitle c.toStr))⟩) ∧
    (m.transformation = "Trim Whitespace" →
      (apply_transformations dateFmt df [m] picklists).bind
          (fun o => o.getCol? m.destination_column)
        = some ⟨m.destination_column, true,
            src.cells.map (fun c => .str (pyStrip c.toStr))⟩) ∧
    (m.transformation = "None" →
      (apply_transformations dateFmt df [m] picklists).bind
          (fun o => o.getCol? m.destination_column)
        = some ⟨m.destination_column, src.isObject, src.cells⟩) ∧
    (m.transformation ∉ ["None", "UPPERCASE", "lowercase", "Trim Whitespace",
        "Title Case", "Date Format (YYYY-MM-DD)", "Lookup Value"] →
      (apply_transformations dateFmt df [m] picklists).bind
          (fun o => o.getCol? m.destination_column)
        = some ⟨m.destination_column, src.isObject, src.cells⟩) := by
  have hstep : ∀ col : Column,
      transformedColumn dateFmt picklists df m = some col →
      (apply_transformations dateFmt df [m] picklists).bind
          (fun o => o.getCol? m.destination_column)
        = some ⟨m.destination_column, col.isObject, col.cells⟩ := by
    intro col hcol
    have hname := transformedColumn_name dateFmt picklists df m col hcol
    unfold apply_transformations
    rw [List.foldlM_cons, hcol]
    simp only [Option.map_some', Option.some_bind, List.foldlM_nil]
    show (df.setCol col).getCol? m.destination_column = _
    rw [← hname, getCol?_setCol_self]
  refine ⟨?_, ?_, ?_, ?_, ?_, ?_⟩ <;> intro ht
  · exact hstep ⟨m.destination_column, true,
        src.cells.map (fun c => .str (pyUpper c.toStr))⟩
      (by simp [transformedColumn, hsrc, ht])
  · exact hstep ⟨m.destination_column, true,
        src.cells.map (fun c => .str (pyLower c.toStr))⟩
      (by simp [transformedColumn, hsrc, ht])
  · exact hstep ⟨m.destination_column, true,
        src.cells.map (fun c => .str (pyTitle c.toStr))⟩
      (by simp [transformedColumn, hsrc, ht])
  · exact hstep ⟨m.destination_column, true,
        src.cells.map (fun c => .str (pyStrip c.toStr))⟩
      (by simp [transformedColumn, hsrc, ht])
  · exact hstep ⟨m.destination_column, src.isObject, src.cells⟩
      (by simp [transformedColumn, hsrc, ht])
  · simp only [List.mem_cons, List.not_mem_nil, or_false, not_or] at ht
    obtain ⟨h1, h2, h3, h4, h5, h6, h7⟩ := ht
    exact hstep ⟨m.destination_column, src.isObject, src.cells⟩
      (by simp [transformedColumn, hsrc, h1, h2, h3, h4, h5, h6, h7])

/-- Witness for C1 at concrete inputs: an UPPERCASE transformation of a column
holding a string, an integer and a NaN. -/
theorem apply_transformations_elementwise_witness :
    (⟨[⟨"a", true, [.str "x y", .int 7, .na]⟩]⟩ : DataFrame).getCol? "a"
      = some ⟨"a", true, [.str "x y", .int 7, .na]⟩
    ∧ (apply_transformations (fun l => l) ⟨[⟨"a", true, [.str "x y", .int 7, .na]⟩]⟩
          [⟨"a", "b", "UPPERCASE"⟩] []).bind (fun o => o.getCol? "b")
        = some ⟨"b", true, [.str "X Y", .str "7", .str "NAN"]⟩ :=
  ⟨by decide,
   (apply_transformations_elementwise (fun l => l) []
      ⟨[⟨"a", true, [.str "x y", .int 7, .na]⟩]⟩ ⟨"a", "b", "UPPERCASE"⟩
      ⟨"a", true, [.str "x y", .int 7, .na]⟩ (by decide)).1 rfl⟩

theorem find?_map_name_preserving (f : Column → Column)
    (hf : ∀ c, (f c).name = c.name) (n : String) :
    ∀ l : List Column,
      (l.map f).find? (fun x => x.name = n)
        = (l.find? (fun x => x.name = n)).map f := by
  intro l
  induction l with
  | nil => rfl
  | cons c0 t ih =>
    simp only [List.map_cons, List.find?_cons, hf c0]
    by_cases h0 : c0.name = n
    · simp [h0]
    · simp [h0, ih]


theorem cleanse_dataframe_no_drop (df : DataFrame) (trim lower empty_nan : Bool) :
    cleanse_dataframe df trim lower empty_nan false
      = ⟨df.cols.map (cleanseColumn trim lower empty_nan)⟩ := by
  cases empty_nan <;> simp [cleanse_dataframe, cleanseColumn, List.map_map]

theorem cleanseColumn_name (trim lower empty_nan : Bool) (c : Column) :
    (cleanseColumn trim lower empty_nan c).name = c.name := by
  unfold cleanseColumn
  by_cases hc : c.isObject <;> cases empty_nan <;> simp [hc]

theorem cleanse_dataframe_getCol (df : DataFrame) (trim lower empty_nan : Bool)
    (n : String) :
    (cleanse_dataframe df trim lower empty_nan false).getCol? n
      = (df.getCol? n).map (cleanseColumn trim lower empty_nan) := by
  rw [cleanse_dataframe_no_drop]
  exact find?_map_name_preserving _ (cleanseColumn_name trim lower empty_nan) n df.cols

theorem cleanseCell_isStr (trim lower : Bool) (y : Cell)
    (htl : trim = true ∨ lower = true) :
    ∃ s, cleanseCell trim lower y = .str s := by
  cases trim with
  | true =>
    cases lower with
    | true => exact ⟨pyLower (Cell.str (pyStrip y.toStr)).toStr, rfl⟩
    | false => exact ⟨pyStrip y.toStr, rfl⟩
  | false =>
    cases lower with
    | true => exact ⟨pyLower y.toStr, rfl⟩
    | false => rcases htl with h | h <;> exact absurd h (by decide)

theorem cleanseCell_na (trim lower : Bool) (htl : trim = true ∨ lower = true) :
    cleanseCell trim lower .na = .str "nan" := by
  cases trim <;> cases lower <;> first
    | decide
    | (rcases htl with h | h <;> exact absurd h (by decide))

/-- Claim C10: a missing (NaN) cell in an object-dtype column is turned into
the literal string "nan" by cleanse_dataframe whenever trim or lower is
enabled (the columns are converted via astype(str)); consequently the
empty_nan option converts a cell back to NaN exactly when its trimmed/lowered
value is the empty string, so previously-missing text cells are no longer
missing afterwards.  (Stated with drop_null off; dropping rows would
renumber them.) -/
theorem cleanse_dataframe_nan_string (df : DataFrame)
    (trim lower empty_nan : Bool) (n : String) (col : Column) (i : Nat)
    (hcol : df.getCol? n = some col) (hobj : col.isObject = true)
    (hna : col.cells.get? i = some .na) (htl : trim = true ∨ lower = true) :
    (((cleanse_dataframe df trim lower empty_nan false).getCol? n).bind
        (fun c => c.cells.get? i)) = some (.str "nan") ∧
    (∀ j y, col.cells.get? j = some y →
      ((((cleanse_dataframe df trim lower empty_nan false).getCol? n).bind
          (fun c => c.cells.get? j)) = some Cell.na
        ↔ (empty_nan = true ∧ cleanseCell trim lower y = .str ""))) := by
  rw [cleanse_dataframe_getCol, hcol]
  simp only [Option.map_some', Option.some_bind]
  have hcells : (cleanseColumn trim lower empty_nan col).cells
      = col.cells.map (fun y =>
          let z := cleanseCell trim lower y
          if empty_nan then (if z = .str "" then .na else z) else z) := by
    unfold cleanseColumn
    cases empty_nan <;> simp [hobj, List.map_map]
  rw [hcells]
  constructor
  · rw [List.get?_map, hna]
    simp only [Option.map_some']
    rw [cleanseCell_na trim lower htl]
    cases empty_nan <;> simp
  · intro j y hj
    rw [List.get?_map, hj]
    simp only [Option.map_some', Option.some.injEq]
    obtain ⟨s, hs⟩ := cleanseCell_isStr trim lower y htl
    rw [hs]
    cases empty_nan with
    | false => simp [hs]
    | true =>
      by_cases he : s = ""
      · subst he; simp [hs]
      · have : Cell.str s ≠ Cell.str "" := by simpa using he
        simp [this, hs]

/-- Witness for C10 at a concrete input: a one-column object DataFrame holding
NaN and the empty string, cleansed with trim, lower and empty_nan enabled. -/
theorem cleanse_dataframe_nan_string_witness :
    ((cleanse_dataframe ⟨[⟨"a", true, [.na, .str ""]⟩]⟩ true true true false).getCol? "a").bind
        (fun c => c.cells.get? 0) = some (.str "nan")
    ∧ (((cleanse_dataframe ⟨[⟨"a", true, [.na, .str ""]⟩]⟩ true true true false).getCol? "a").bind
        (fun c => c.cells.get? 1) = some Cell.na
       ↔ (true = true ∧ cleanseCell true true (.str "") = .str "")) :=
  ⟨(cleanse_dataframe_nan_string ⟨[⟨"a", true, [.na, .str ""]⟩]⟩ true true true "a"
      ⟨"a", true, [.na, .str ""]⟩ 0 (by decide) rfl (by decide) (Or.inl rfl)).1,
   (cleanse_dataframe_nan_string ⟨[⟨"a", true, [.na, .str ""]⟩]⟩ true true true "a"
      ⟨"a", true, [.na, .str ""]⟩ 0 (by decide) rfl (by decide) (Or.inl rfl)).2
     1 (.str "") (by decide)⟩

theorem firstIdxWhere_lt_length {α : Type} (p : α → Bool) :
    ∀ (l : List α) (i : Nat), firstIdxWhere p l = some i → i < l.length := by
  intro l
  induction l with
  | nil => intro i h; simp [firstIdxWhere] at h
  | cons x t ih =>
    intro i h
    unfold firstIdxWhere at h
    by_cases hx : p x
    · rw [if_pos hx] at h
      cases h
      simp
    · rw [if_neg hx] at h
      cases hj : firstIdxWhere p t with
      | none => rw [hj] at h; simp at h
      | some j =>
        rw [hj] at h
        simp only [Option.map_some', Option.some.injEq] at h
        subst h
        have := ih j hj
        simp
        omega

theorem firstIdxWhere_map {α β : Type} (q : β → Bool) (f : α → β) :
    ∀ l : List α, firstIdxWhere q (l.map f) = firstIdxWhere (fun a => q (f a)) l := by
  intro l
  induction l with
  | nil => rfl
  | cons x t ih =>
    unfold firstIdxWhere
    simp only [List.map_cons]
    by_cases hx : q (f x) <;> simp [hx, ih]

theorem filterMap_mask_head {α : Type} :
    ∀ (bs : List Bool) (xs : List α),
      ((bs.zip xs).filterMap (fun p => if p.1 then some p.2 else none)).head?
        = (firstIdxWhere (fun b => b) bs).bind xs.get? := by
  intro bs
  induction bs with
  | nil => intro xs; rfl
  | cons b bt ih =>
    intro xs
    cases xs with
    | nil => cases b <;> simp [firstIdxWhere]
    | cons x xt =>
      cases b with
      | true => simp [firstIdxWhere, List.filterMap_cons]
      | false =>
        have h1 : ((false :: bt).zip (x :: xt)).filterMap
              (fun p => if p.1 then some p.2 else none)
            = (bt.zip xt).filterMap (fun p => if p.1 then some p.2 else none) := by
          simp [List.zip_cons_cons, List.filterMap_cons]
        have h2 : firstIdxWhere (fun b => b) (false :: bt)
            = (firstIdxWhere (fun b => b) bt).map (· + 1) := by
          simp [firstIdxWhere]
        rw [h1, ih xt, h2]
        cases hj : firstIdxWhere (fun b => b) bt with
        | none => simp
        | some j => simp

theorem filterMap_allSome_get {α β : Type} (f : α → Option β) :
    ∀ (l : List α), (∀ a ∈ l, (f a).isSome) →
      ∀ k, (l.filterMap f).get? k = (l.get? k).bind f := by
  intro l
  induction l with
  | nil => intro _ k; simp
  | cons a t ih =>
    intro h k
    have ha := h a (List.mem_cons_self _ _)
    cases hfa : f a with
    | none => rw [hfa] at ha; simp at ha
    | some x =>
      rw [List.filterMap_cons, hfa]
      cases k with
      | zero => simp [hfa]
      | succ k => simpa using ih (fun a ha => h a (List.mem_cons_of_mem _ ha)) k

theorem rows_get (pl : DataFrame) (i : Nat) (hi : i < pl.nrows) :
    pl.rows.get? i = some (pl.cols.filterMap (fun c => c.cells.get? i)) := by
  unfold DataFrame.rows
  rw [List.get?_map, List.get?_range hi]
  rfl

/-- Claim C4: on a wellformed picklist DataFrame with at least two columns,
apply_picklist_lookup returns the entry in the picklist's second column of the
first row whose column_name cell equals the value, and returns the original
value when no row matches or the column is absent (the exception fallbacks of
the bare `except` are the remaining `value` branches of the model, unreachable
under these hypotheses). -/
theorem apply_picklist_lookup_spec (value : Cell) (pl : DataFrame) (cn : String)
    (hwf : pl.Wellformed) (h2 : 2 ≤ pl.cols.length) :
    apply_picklist_lookup value pl cn = picklistLookupSpec value pl cn := by
  cases hc : pl.getCol? cn with
  | none => simp only [apply_picklist_lookup, picklistLookupSpec, hc]
  | some col =>
    simp only [apply_picklist_lookup, picklistLookupSpec, hc]
    have hmem : col ∈ pl.cols := List.mem_of_find?_eq_some hc
    have hlen : col.cells.length = pl.nrows := hwf col hmem
    have hmask := filterMap_mask_head (col.cells.map (fun c => pyEq c value)) pl.rows
    rw [firstIdxWhere_map] at hmask
    cases hidx : firstIdxWhere (fun c => pyEq c value) col.cells with
    | none =>
      rw [hidx] at hmask
      simp only [Option.none_bind] at hmask
      cases hm : ((col.cells.map (fun c => pyEq c value)).zip pl.rows).filterMap
          (fun br => if br.1 then some br.2 else none) with
      | nil => rfl
      | cons r t => rw [hm] at hmask; simp at hmask
    | some i =>
      have hi : i < col.cells.length := firstIdxWhere_lt_length _ _ _ hidx
      rw [hidx] at hmask
      simp only [Option.some_bind] at hmask
      rw [rows_get pl i (hlen ▸ hi)] at hmask
      cases hm : ((col.cells.map (fun c => pyEq c value)).zip pl.rows).filterMap
          (fun br => if br.1 then some br.2 else none) with
      | nil => rw [hm] at hmask; simp at hmask
      | cons r t =>
        rw [hm] at hmask
        simp only [List.head?_cons, Option.some.injEq] at hmask
        subst hmask
        simp only []
        have hall : ∀ c ∈ pl.cols, (c.cells.get? i).isSome := by
          intro c hcm
          have hcl := hwf c hcm
          cases hx : c.cells.get? i with
          | none =>
            have := List.get?_eq_none.mp hx
            omega
          | some _ => rfl
        rw [filterMap_allSome_get _ pl.cols hall 1]
        cases hc2 : pl.cols.get? 1 with
        | none =>
          have := List.get?_eq_none.mp hc2
          omega
        | some c2 =>
          have hc2m : c2 ∈ pl.cols := List.get?_mem hc2
          have hc2l := hwf c2 hc2m
          cases hx : c2.cells.get? i with
          | none =>
            have := List.get?_eq_none.mp hx
            omega
          | some x =>
            show (match (some c2).bind (fun a => a.cells.get? i) with
                  | some x => x
                  | none => value)
                = (c2.cells.get? i).getD value
            rw [Option.some_bind, hx]
            rfl

/-- Witness for C4 at a concrete input: looking up "B" in a two-column
status picklist. -/
theorem apply_picklist_lookup_spec_witness :
    (⟨[⟨"code", true, [.str "A", .str "B"]⟩,
       ⟨"label", true, [.str "Alpha", .str "Beta"]⟩]⟩ : DataFrame).Wellformed
    ∧ apply_picklist_lookup (.str "B")
        ⟨[⟨"code", true, [.str "A", .str "B"]⟩,
          ⟨"label", true, [.str "Alpha", .str "Beta"]⟩]⟩ "code"
      = picklistLookupSpec (.str "B")
        ⟨[⟨"code", true, [.str "A", .str "B"]⟩,
          ⟨"label", true, [.str "Alpha", .str "Beta"]⟩]⟩ "code" :=
  ⟨by unfold DataFrame.Wellformed; decide,
   apply_picklist_lookup_spec (.str "B")
     ⟨[⟨"code", true, [.str "A", .str "B"]⟩,
       ⟨"label", true, [.str "Alpha", .str "Beta"]⟩]⟩ "code"
     (by unfold DataFrame.Wellformed; decide) (by decide)⟩

theorem alistLookup_put_self {κ α : Type} [DecidableEq κ]
    (l : List (κ × α)) (k : κ) (v : α) :
    alistLookup (alistPut l k v) k = some v := by
  unfold alistPut
  by_cases h : alistHas l k
  · rw [if_pos h]
    unfold alistHas at h
    unfold alistLookup
    induction l with
    | nil => simp at h
    | cons p t ih =>
      by_cases hp : p.1 = k
      · simp [List.find?_cons, hp]
      · simp only [List.map_cons, if_neg hp, List.find?_cons]
        have hd : (decide (p.1 = k)) = false := by simp [hp]
        rw [hd]
        exact ih (by simpa [hp] using h)
  · rw [if_neg h]
    unfold alistLookup
    rw [List.find?_append]
    have hnone : l.find? (fun p => p.1 = k) = none := by
      rw [List.find?_eq_none]
      intro x hx hc
      apply h
      show alistHas l k = true
      exact List.any_eq_true.mpr ⟨x, hx, hc⟩
    rw [hnone]
    simp [List.find?_cons]

/-- Claim C6: process_uploaded_file writes the uploaded sample to
source_samples/{type}_sample.csv only when it passes column validation
(HRP1000 requires 'Object ID', 'Name', 'Start date'; HRP1001 requires
'Source ID', 'Target object ID', 'Start date'); when a required column is
missing an error is reported and the store — including any previously saved
sample — is unchanged, and validation of any other source type always
succeeds. -/
theorem process_uploaded_file_validates (fs : List (String × DataFrame))
    (df : DataFrame) (t : String) :
    ((∃ c ∈ required_columns t, df.hasCol c = false) →
      (process_uploaded_file fs (some df) t).fs = fs
      ∧ (process_uploaded_file fs (some df) t).error ≠ none) ∧
    ((∀ c ∈ required_columns t, df.hasCol c = true) →
      alistLookup (process_uploaded_file fs (some df) t).fs (samplePath t) = some df
      ∧ (process_uploaded_file fs (some df) t).error = none) ∧
    (t ≠ "HRP1000" → t ≠ "HRP1001" → (validate_sample_columns t df).1 = true) := by
  refine ⟨?_, ?_, ?_⟩
  · rintro ⟨c, hcm, hc⟩
    have hmem : c ∈ (required_columns t).filter (fun c => !(df.hasCol c)) :=
      List.mem_filter.mpr ⟨hcm, by simp [hc]⟩
    have hval : (validate_sample_columns t df).1 = false := by
      unfold validate_sample_columns
      have hne : ¬ ((required_columns t).filter (fun c => !(df.hasCol c))).isEmpty := by
        cases hl : (required_columns t).filter (fun c => !(df.hasCol c)) with
        | nil => rw [hl] at hmem; simp at hmem
        | cons a l => simp [hl]
      rw [if_neg (by simpa using hne)]
    simp [process_uploaded_file, hval]
  · intro hall
    have hfil : (required_columns t).filter (fun c => !(df.hasCol c)) = [] := by
      rw [List.filter_eq_nil]
      intro c hcm
      simp [hall c hcm]
    have hval : (validate_sample_columns t df).1 = true := by
      unfold validate_sample_columns
      rw [hfil]
      rfl
    constructor
    · simp only [process_uploaded_file, hval, if_pos]
      exact alistLookup_put_self fs (samplePath t) df
    · simp [process_uploaded_file, hval]
  · intro h1 h2
    simp [validate_sample_columns, required_columns, h1, h2]

/-- Witness for C6 at concrete inputs: an HRP1000 sample missing 'Start date'
is rejected and does not clobber the stored sample; a complete one is saved. -/
theorem process_uploaded_file_validates_witness :
    ((process_uploaded_file [("source_samples/HRP1000_sample.csv", ⟨[]⟩)]
        (some ⟨[⟨"Object ID", true, []⟩, ⟨"Name", true, []⟩]⟩) "HRP1000").fs
      = [("source_samples/HRP1000_sample.csv", ⟨[]⟩)])
    ∧ alistLookup (process_uploaded_file []
        (some ⟨[⟨"Object ID", true, []⟩, ⟨"Name", true, []⟩,
                ⟨"Start date", true, []⟩]⟩) "HRP1000").fs
        (samplePath "HRP1000")
      = some ⟨[⟨"Object ID", true, []⟩, ⟨"Name", true, []⟩, ⟨"Start date", true, []⟩]⟩ :=
  ⟨(process_uploaded_file_validates [("source_samples/HRP1000_sample.csv", ⟨[]⟩)]
      ⟨[⟨"Object ID", true, []⟩, ⟨"Name", true, []⟩]⟩ "HRP1000").1
      ⟨"Start date", by decide, by decide⟩ |>.1,
   ((process_uploaded_file_validates []
      ⟨[⟨"Object ID", true, []⟩, ⟨"Name", true, []⟩, ⟨"Start date", true, []⟩]⟩
      "HRP1000").2.1 (by decide)).1⟩

/-- Counterexample to claim C8 as stated: on a zero-row DataFrame the
missing-percentage division `missing_stats.sum() / (len(df) * len(df.columns))`
has a zero denominator, so numpy yields NaN (modelled `none`) — not 0.  (The
guard `if len(df) > 0 else 0` protects only duplicate_percentage.) -/
theorem analyze_data_quality_empty_counterexample :
    (analyze_data_quality ⟨[⟨"A", true, []⟩]⟩ "t").missing_data.missing_percentage
      ≠ some 0 := by decide

/-- Claim C8 as amended: analyze_data_quality is total (the embedding is a
total function, with every division guarded or NaN-valued), and for a
DataFrame with zero rows it reports duplicate_percentage 0 and
missing_percentage NaN (`none`), the NaN coming from numpy's zero-by-zero
division. -/
theorem analyze_data_quality_empty (df : DataFrame) (name : String)
    (h : df.nrows = 0) :
    (analyze_data_quality df name).duplicate_analysis.duplicate_percentage = 0
    ∧ (analyze_data_quality df name).missing_data.missing_percentage = none := by
  unfold analyze_data_quality
  constructor
  · simp [h]
  · simp [h]

/-- Witness for the amended C8 at a concrete input: a one-column, zero-row
DataFrame. -/
theorem analyze_data_quality_empty_witness :
    (analyze_data_quality ⟨[⟨"A", true, []⟩]⟩ "t").duplicate_analysis.duplicate_percentage = 0
    ∧ (analyze_data_quality ⟨[⟨"A", true, []⟩]⟩ "t").missing_data.missing_percentage = none :=
  analyze_data_quality_empty ⟨[⟨"A", true, []⟩]⟩ "t" rfl

theorem dropWhile_head_false {α : Type} (p : α → Bool) :
    ∀ (l : List α) (c : α), (l.dropWhile p).head? = some c → p c = false := by
  intro l
  induction l with
  | nil => intro c h; simp at h
  | cons x t ih =>
    intro c h
    rw [List.dropWhile_cons] at h
    by_cases hx : p x
    · rw [if_pos hx] at h
      exact ih c h
    · rw [if_neg hx] at h
      simp only [List.head?_cons, Option.some.injEq] at h
      subst h
      simpa using hx

theorem pyStripChars_eq_self (l : List Char)
    (hh : ∀ c, l.head? = some c → isPySpace c = false)
    (hl : ∀ c, l.getLast? = some c → isPySpace c = false) :
    pyStripChars l = l := by
  unfold pyStripChars
  have h1 : l.dropWhile isPySpace = l := by
    cases l with
    | nil => rfl
    | cons c t =>
      rw [List.dropWhile_cons, if_neg]
      rw [hh c rfl]
      simp
  rw [h1]
  have h2 : l.reverse.dropWhile isPySpace = l.reverse := by
    cases hr : l.reverse with
    | nil => rfl
    | cons c t =>
      rw [List.dropWhile_cons, if_neg]
      have : l.getLast? = some c := by
        rw [← List.head?_reverse, hr]
        rfl
      rw [hl c this]
      simp
  rw [h2, List.reverse_reverse]

theorem cleanFieldB_spec (s : String) (h : cleanFieldB s = true) :
    (∀ c ∈ s.data, c ≠ ',' ∧ c ≠ '\n')
    ∧ (∀ c, s.data.head? = some c → isPySpace c = false)
    ∧ (∀ c, s.data.getLast? = some c → isPySpace c = false) := by
  unfold cleanFieldB at h
  rw [Bool.and_eq_true, Bool.and_eq_true] at h
  obtain ⟨⟨h1, h2⟩, h3⟩ := h
  refine ⟨?_, ?_, ?_⟩
  · intro c hc
    have := List.all_eq_true.mp h1 c hc
    simp only [Bool.not_eq_true', Bool.or_eq_false_iff] at this
    constructor
    · intro he; rw [he] at this; simp at this
    · intro he; rw [he] at this; simp at this
  · intro c hc
    rw [hc] at h2
    simpa using h2
  · intro c hc
    rw [hc] at h3
    simpa using h3

theorem stripNonEmpty_self (s : String) (hs : s ≠ "")
    (hh : ∀ c, s.data.head? = some c → isPySpace c = false)
    (hl : ∀ c, s.data.getLast? = some c → isPySpace c = false) :
    stripNonEmpty s = some s := by
  have hself : pyStrip s = s := by
    unfold pyStrip
    rw [pyStripChars_eq_self s.data hh hl]
  unfold stripNonEmpty
  rw [hself, if_neg hs]

theorem splitChars_no_sep (sep : Char) :
    ∀ l : List Char, (∀ c ∈ l, c ≠ sep) → splitChars sep l = [l] := by
  intro l
  induction l with
  | nil => intro _; rfl
  | cons c t ih =>
    intro h
    simp only [splitChars]
    rw [if_neg (h c (List.mem_cons_self _ _)), ih (fun x hx => h x (List.mem_cons_of_mem _ hx))]
    rfl

theorem splitChars_append_sep (sep : Char) :
    ∀ (a r : List Char), (∀ c ∈ a, c ≠ sep) →
      splitChars sep (a ++ sep :: r) = a :: splitChars sep r := by
  intro a
  induction a with
  | nil => intro r _; simp [splitChars]
  | cons c t ih =>
    intro r h
    simp only [List.cons_append, splitChars, List.append_eq]
    rw [if_neg (h c (List.mem_cons_self _ _)),
      ih r (fun x hx => h x (List.mem_cons_of_mem _ hx))]
    rfl

theorem filterMap_eq_map_of_some {α β : Type} (f : α → Option β) (g : α → β) :
    ∀ l : List α, (∀ x ∈ l, f x = some (g x)) → l.filterMap f = l.map g := by
  intro l
  induction l with
  | nil => intro _; rfl
  | cons x t ih =>
    intro h
    rw [List.filterMap_cons, h x (List.mem_cons_self _ _),
      ih (fun y hy => h y (List.mem_cons_of_mem _ hy)), List.map_cons]

theorem strMk_data (s : String) : String.mk s.data = s := rfl

theorem data_ne_nil (s : String) (hs : s ≠ "") : s.data ≠ [] := by
  intro hd
  apply hs
  rw [← strMk_data s, hd]

theorem templateLine_data (e : TemplateEntry) :
    (templateLine e).data
      = e.target_column1.data
          ++ ',' :: (e.target_column2.data ++ ',' :: (e.description.getD "").data) := by
  unfold templateLine
  simp only [String.data_append, List.append_assoc, List.singleton_append, List.cons_append, List.nil_append]


theorem templateParseLine_line (e : TemplateEntry)
    (h1 : e.target_column1 ≠ "") (h2 : e.target_column2 ≠ "")
    (hc1 : cleanFieldB e.target_column1 = true)
    (hc2 : cleanFieldB e.target_column2 = true)
    (hcd : cleanFieldB (e.description.getD "") = true) :
    templateParseLine (templateLine e)
      = some ⟨e.target_column1, e.target_column2, some (e.description.getD "")⟩ := by
  obtain ⟨n1, hh1, hl1⟩ := cleanFieldB_spec _ hc1
  obtain ⟨n2, hh2, hl2⟩ := cleanFieldB_spec _ hc2
  obtain ⟨nd, hhd, hld⟩ := cleanFieldB_spec _ hcd
  unfold templateParseLine pySplit
  rw [templateLine_data e]
  rw [splitChars_append_sep ',' _ _ (fun c hc => (n1 c hc).1)]
  rw [splitChars_append_sep ',' _ _ (fun c hc => (n2 c hc).1)]
  rw [splitChars_no_sep ',' _ (fun c hc => (nd c hc).1)]
  simp only [List.map_cons, List.map_nil, strMk_data]
  have hs1 := stripNonEmpty_self _ h1 hh1 hl1
  have hs2 := stripNonEmpty_self _ h2 hh2 hl2
  by_cases hd : (e.description.getD "") = ""
  · have hsd : stripNonEmpty (e.description.getD "") = none := by
      rw [hd]; rfl
    simp only [List.filterMap_cons, hs1, hs2, hsd, List.filterMap_nil]
    simp [hd]
  · have hsd := stripNonEmpty_self _ hd hhd hld
    simp only [List.filterMap_cons, hs1, hs2, hsd, List.filterMap_nil]
    rfl

theorem pySplit_join (lines : List String) (hne : lines ≠ [])
    (h : ∀ s ∈ lines, ∀ c ∈ s.data, c ≠ '\n') :
    pySplit '\n' ⟨joinWith '\n' lines⟩ = lines := by
  induction lines with
  | nil => exact absurd rfl hne
  | cons s rest ih =>
    cases rest with
    | nil =>
      show (splitChars '\n' s.data).map (fun l => String.mk l) = [s]
      rw [splitChars_no_sep '\n' s.data (h s (List.mem_cons_self _ _))]
      simp [strMk_data]
    | cons s2 r2 =>
      show (splitChars '\n' (s.data ++ '\n' :: joinWith '\n' (s2 :: r2))).map
          (fun l => String.mk l) = _
      rw [splitChars_append_sep '\n' _ _ (h s (List.mem_cons_self _ _))]
      simp only [List.map_cons, strMk_data]
      congr 1
      exact ih (by simp) (fun x hx => h x (List.mem_cons_of_mem _ hx))

theorem templateLine_no_newline (e : TemplateEntry)
    (hc1 : cleanFieldB e.target_column1 = true)
    (hc2 : cleanFieldB e.target_column2 = true)
    (hcd : cleanFieldB (e.description.getD "") = true) :
    ∀ c ∈ (templateLine e).data, c ≠ '\n' := by
  obtain ⟨n1, _, _⟩ := cleanFieldB_spec _ hc1
  obtain ⟨n2, _, _⟩ := cleanFieldB_spec _ hc2
  obtain ⟨nd, _, _⟩ := cleanFieldB_spec _ hcd
  rw [templateLine_data]
  intro c hc
  simp only [List.mem_append, List.mem_cons] at hc
  rcases hc with h | h | h | h | h
  · exact (n1 c h).2
  · subst h; decide
  · exact (n2 c h).2
  · subst h; decide
  · exact (nd c h).2

theorem templateLine_strip (e : TemplateEntry)
    (h1 : e.target_column1 ≠ "")
    (hc1 : cleanFieldB e.target_column1 = true)
    (hcd : cleanFieldB (e.description.getD "") = true) :
    stripNonEmpty (templateLine e) = some (templateLine e) := by
  obtain ⟨_, hh1, _⟩ := cleanFieldB_spec _ hc1
  obtain ⟨_, _, hld⟩ := cleanFieldB_spec _ hcd
  have hdat := templateLine_data e
  have hor1 : ∀ (o : Option Char) (x : Char), (some x).or o = some x := fun _ _ => rfl
  have hor2 : ∀ (o : Option Char), (Option.or none o) = o := fun _ => rfl
  apply stripNonEmpty_self
  · intro hemp
    have hnil : (templateLine e).data = [] := by rw [hemp]
    rw [hdat] at hnil
    rcases List.append_eq_nil.mp hnil with ⟨_, h2⟩
    exact absurd h2 (by simp)
  · intro c hc
    rw [hdat] at hc
    cases ht : e.target_column1.data with
    | nil => exact absurd ht (data_ne_nil _ h1)
    | cons x xs =>
      rw [ht, List.cons_append, List.head?_cons, Option.some.injEq] at hc
      subst hc
      apply hh1
      rw [ht]
      rfl
  · intro c hc
    have hsplit : (templateLine e).data
        = ((e.target_column1.data ++ ',' :: e.target_column2.data) ++ [','])
            ++ (e.description.getD "").data := by
      rw [hdat]
      simp [List.append_assoc]
    rw [hsplit, List.getLast?_append] at hc
    cases hD : (e.description.getD "").data.getLast? with
    | some x =>
      rw [hD, hor1, Option.some.injEq] at hc
      subst hc
      exact hld x hD
    | none =>
      rw [hD, hor2, List.getLast?_append] at hc
      have : (List.getLast? [',']).or
          (e.target_column1.data ++ ',' :: e.target_column2.data).getLast? = some ',' := rfl
      rw [this, Option.some.injEq] at hc
      subst hc
      decide

/-- Claim C7: template text editing round-trips.  For every template whose
entries have non-empty target_column1 and target_column2 and whose
target_column1, target_column2 and description contain no commas, no newlines
and no leading or trailing whitespace, converting to text and back yields the
same template, with an absent or empty description mapped to the empty
string. -/
theorem convert_template_roundtrip (t : List TemplateEntry)
    (h : ∀ e ∈ t, e.target_column1 ≠ "" ∧ e.target_column2 ≠ ""
      ∧ cleanFieldB e.target_column1 = true ∧ cleanFieldB e.target_column2 = true
      ∧ cleanFieldB (e.description.getD "") = true) :
    convert_text_to_template (convert_template_to_text t)
      = t.map (fun e => { e with description := some (e.description.getD "") }) := by
  cases t with
  | nil => rfl
  | cons e0 t0 =>
    unfold convert_text_to_template convert_template_to_text
    rw [pySplit_join ((e0 :: t0).map templateLine) (by simp)
      (by
        intro s hs
        rw [List.mem_map] at hs
        obtain ⟨e, he, rfl⟩ := hs
        obtain ⟨_, _, hc1, hc2, hcd⟩ := h e he
        exact templateLine_no_newline e hc1 hc2 hcd)]
    rw [List.filterMap_map]
    rw [filterMap_eq_map_of_some _ templateLine (e0 :: t0)
      (by
        intro e he
        obtain ⟨h1, _, hc1, _, hcd⟩ := h e he
        exact templateLine_strip e h1 hc1 hcd)]
    rw [List.filterMap_map]
    exact filterMap_eq_map_of_some _
      (fun e => { e with description := some (e.description.getD "") }) (e0 :: t0)
      (by
        intro e he
        obtain ⟨h1, h2, hc1, hc2, hcd⟩ := h e he
        exact templateParseLine_line e h1 h2 hc1 hc2 hcd)

/-- Witness for C7 at a concrete input: a two-entry template, one entry with a
description and one without. -/
theorem convert_template_roundtrip_witness :
    convert_text_to_template (convert_template_to_text
        [⟨"a", "b", some "d"⟩, ⟨"x", "y", none⟩])
      = [⟨"a", "b", some "d"⟩, ⟨"x", "y", some ""⟩] :=
  convert_template_roundtrip [⟨"a", "b", some "d"⟩, ⟨"x", "y", none⟩] (by decide)

theorem charsPrefixOf_iff (p : List Char) :
    ∀ l : List Char, charsPrefixOf p l = true ↔ ∃ r, l = p ++ r := by
  induction p with
  | nil =>
    intro l
    simp [charsPrefixOf]
  | cons x xs ih =>
    intro l
    cases l with
    | nil =>
      simp only [charsPrefixOf]
      constructor
      · intro h; exact absurd h (by simp)
      · rintro ⟨r, hr⟩; simp at hr
    | cons c cs =>
      simp only [charsPrefixOf, Bool.and_eq_true, decide_eq_true_eq]
      rw [ih cs]
      constructor
      · rintro ⟨rfl, r, rfl⟩
        exact ⟨r, rfl⟩
      · rintro ⟨r, hr⟩
        rw [List.cons_append] at hr
        cases hr
        exact ⟨rfl, r, rfl⟩

theorem subOccurs_iff (pat : List Char) :
    ∀ l : List Char, subOccurs pat l = true ↔ ∃ a b, l = a ++ pat ++ b := by
  intro l
  induction l with
  | nil =>
    simp only [subOccurs]
    rw [charsPrefixOf_iff]
    constructor
    · rintro ⟨r, hr⟩
      obtain ⟨hp, _⟩ := List.append_eq_nil.mp hr.symm
      exact ⟨[], [], by simp [hp]⟩
    · rintro ⟨a, b, hab⟩
      obtain ⟨h1, _⟩ := List.append_eq_nil.mp hab.symm
      obtain ⟨_, hp⟩ := List.append_eq_nil.mp h1
      exact ⟨[], by simp [hp]⟩
  | cons c t ih =>
    simp only [subOccurs, Bool.or_eq_true]
    rw [charsPrefixOf_iff, ih]
    constructor
    · rintro (⟨r, hr⟩ | ⟨a, b, hab⟩)
      · exact ⟨[], r, by simpa using hr⟩
      · exact ⟨c :: a, b, by simp [hab]⟩
    · rintro ⟨a, b, hab⟩
      cases a with
      | nil =>
        left
        exact ⟨b, by simpa using hab⟩
      | cons a0 as =>
        right
        rw [List.cons_append, List.cons_append] at hab
        cases hab
        exact ⟨as, b, by simp⟩

theorem dataContainsId_iff (d : DataFrame) (oid : String) :
    dataContainsId d oid = true
      ↔ ∃ col ∈ d.cols, ∃ cell ∈ col.cells, ∃ x y,
          (Cell.toStr cell).data = x ++ oid.data ++ y := by
  unfold dataContainsId
  rw [List.any_eq_true]
  constructor
  · rintro ⟨col, hcol, hany⟩
    rw [List.any_eq_true] at hany
    obtain ⟨cell, hcell, hsub⟩ := hany
    obtain ⟨x, y, hxy⟩ := (subOccurs_iff oid.data cell.toStr.data).mp hsub
    exact ⟨col, hcol, cell, hcell, x, y, by rw [hxy]⟩
  · rintro ⟨col, hcol, cell, hcell, x, y, hxy⟩
    refine ⟨col, hcol, ?_⟩
    rw [List.any_eq_true]
    refine ⟨cell, hcell, ?_⟩
    rw [subOccurs_iff]
    exact ⟨x, y, by rw [hxy]⟩

theorem levelProbe_eq (oid : String) (output : OutputFiles) (ui : UnitInfo)
    (lvl : Int) (fi : FileInfo) (d : DataFrame)
    (h1 : ui.level = some lvl)
    (h2 : alistLookup output.level_files lvl = some fi)
    (h3 : fi.data = some d) :
    levelProbe oid output ui
      = (dataContainsId d oid,
         if dataContainsId d oid then
           [levelFileEntry lvl (fi.filename.getD "Unknown")]
         else []) := by
  unfold levelProbe
  rw [h1]
  simp only [h2, h3]
  by_cases hc : dataContainsId d oid <;> simp [hc]

theorem assocFileEntry_ne_levelFileEntry (n m : Int) (f g : String) :
    assocFileEntry n f ≠ levelFileEntry m g := by
  intro h
  have hd := congrArg String.data h
  unfold assocFileEntry levelFileEntry at hd
  simp only [String.data_append, List.append_assoc] at hd
  have hA : ∀ x : List Char, (("Association Level " : String).data ++ x).head? = some 'A' :=
    fun _ => rfl
  have hL : ∀ x : List Char, (("Level " : String).data ++ x).head? = some 'L' :=
    fun _ => rfl
  have := congrArg List.head? hd
  rw [hA, hL] at this
  simp at this

theorem assocScan_entries (oid : String) :
    ∀ (files : List (Int × FileInfo)) (acc : Bool × List String),
      (∀ s ∈ acc.2, ∃ n f, s = assocFileEntry n f) →
      ∀ s ∈ (files.foldl
          (fun acc p =>
            match p.2.data with
            | some d =>
              if dataContainsId d oid then
                (true, acc.2 ++ [assocFileEntry p.1 (p.2.filename.getD "Unknown")])
              else acc
            | none => acc)
          acc).2,
        ∃ n f, s = assocFileEntry n f := by
  intro files
  induction files with
  | nil => intro acc hacc s hs; exact hacc s hs
  | cons p rest ih =>
    intro acc hacc s hs
    rw [List.foldl_cons] at hs
    apply ih _ ?_ s hs
    cases hd : p.2.data with
    | none => simpa [hd] using hacc
    | some d =>
      by_cases hc : dataContainsId d oid
      · simp only [hd, hc, if_pos]
        intro x hx
        rw [List.mem_append] at hx
        rcases hx with hx | hx
        · exact hacc x hx
        · rw [List.mem_singleton] at hx
          exact ⟨p.1, p.2.filename.getD "Unknown", hx⟩
      · simpa [hd, hc] using hacc

/-- Claim C3: for an Object ID present in hierarchy_structure with an assigned
level whose level file exists with non-None data, analyze_single_record
reports the record as appearing in that level output file exactly when the id
occurs as a substring of the string form of some cell of some column of that
file — a mere substring of a longer value also counts (status SUCCESS, or
WARNING over association files, rather than ERROR/MISSING_FROM_OUTPUT).  The
alphanumeric-id hypothesis marks the scope on which the model's literal
substring scan coincides with the `str.contains` regex containment the code
performs. -/
theorem analyze_single_record_substring (oid : String) (un ss : Cell)
    (h1000 h1001 : Option DataFrame) (output : OutputFiles)
    (hier : List (String × UnitInfo)) (ui : UnitInfo) (lvl : Int)
    (fi : FileInfo) (d : DataFrame)
    (hlook : alistLookup hier oid = some ui)
    (hlvl : ui.level = some lvl)
    (hfile : alistLookup output.level_files lvl = some fi)
    (hdata : fi.data = some d)
    (hid : oid.data.all Char.isAlphanum = true) :
    ((∃ col ∈ d.cols, ∃ cell ∈ col.cells, ∃ x y,
        (Cell.toStr cell).data = x ++ oid.data ++ y)
      ↔ levelFileEntry lvl (fi.filename.getD "Unknown")
          ∈ (analyze_single_record oid un ss h1000 h1001 output hier).appears_in)
    ∧ ((∃ col ∈ d.cols, ∃ cell ∈ col.cells, ∃ x y,
        (Cell.toStr cell).data = x ++ oid.data ++ y) →
        ((analyze_single_record oid un ss h1000 h1001 output hier).status = "SUCCESS"
          ∨ (analyze_single_record oid un ss h1000 h1001 output hier).status = "WARNING")
        ∧ (analyze_single_record oid un ss h1000 h1001 output hier).issue_type = none)
    ∧ ((¬ ∃ col ∈ d.cols, ∃ cell ∈ col.cells, ∃ x y,
        (Cell.toStr cell).data = x ++ oid.data ++ y) →
        (analyze_single_record oid un ss h1000 h1001 output hier).status = "ERROR"
        ∧ (analyze_single_record oid un ss h1000 h1001 output hier).issue_type
            = some "MISSING_FROM_OUTPUT") := by
  have hiff := dataContainsId_iff d oid
  have hprobe := levelProbe_eq oid output ui lvl fi d hlvl hfile hdata
  by_cases hc : dataContainsId d oid = true
  · have hrec : analyze_single_record oid un ss h1000 h1001 output hier
        = { object_id := oid
            unit_name := un
            source_status := ss
            status := if (idInColumn h1001 "Source ID" oid
                || idInColumn h1001 "Target object ID" oid)
                && !(if idInColumn h1001 "Source ID" oid
                    || idInColumn h1001 "Target object ID" oid then
                  assocScan oid output.association_files else (false, [])).1
              then "WARNING" else "SUCCESS"
            appears_in := [levelFileEntry lvl (fi.filename.getD "Unknown")]
              ++ (if idInColumn h1001 "Source ID" oid
                  || idInColumn h1001 "Target object ID" oid then
                assocScan oid output.association_files else (false, [])).2
            missing_from := if (idInColumn h1001 "Source ID" oid
                || idInColumn h1001 "Target object ID" oid)
                && !(if idInColumn h1001 "Source ID" oid
                    || idInColumn h1001 "Target object ID" oid then
                  assocScan oid output.association_files else (false, [])).1
              then ["Some association files"] else []
            issue_type := none
            severity := "LOW" } := by
      simp only [analyze_single_record, hlook, hprobe, hc, if_pos]
    rw [hrec]
    refine ⟨?_, ?_, ?_⟩
    · constructor
      · intro _
        simp
      · intro _
        exact hiff.mp hc
    · intro _
      constructor
      · by_cases hw : (idInColumn h1001 "Source ID" oid
            || idInColumn h1001 "Target object ID" oid)
            && !(if idInColumn h1001 "Source ID" oid
                || idInColumn h1001 "Target object ID" oid then
              assocScan oid output.association_files else (false, [])).1
        · right
          rw [if_pos hw]
        · left
          rw [if_neg hw]
      · rfl
    · intro hn
      exact absurd (hiff.mp hc) hn
  · have hrec : analyze_single_record oid un ss h1000 h1001 output hier
        = { object_id := oid
            unit_name := un
            source_status := ss
            status := "ERROR"
            appears_in := []
              ++ (if idInColumn h1001 "Source ID" oid
                  || idInColumn h1001 "Target object ID" oid then
                assocScan oid output.association_files else (false, [])).2
            missing_from := ["Level " ++ levelToStr ui.level ++ " output file"]
            issue_type := some "MISSING_FROM_OUTPUT"
            severity := "HIGH" } := by
      simp only [analyze_single_record, hlook, hprobe, hc, if_neg, Bool.false_eq_true,
        if_false]
    rw [hrec]
    refine ⟨?_, ?_, ?_⟩
    · constructor
      · intro hex
        exact absurd (hiff.mpr hex) hc
      · intro hmem
        simp only [List.nil_append] at hmem
        by_cases hr : (idInColumn h1001 "Source ID" oid
            || idInColumn h1001 "Target object ID" oid) = true
        · rw [if_pos hr] at hmem
          obtain ⟨n, f, hnf⟩ := assocScan_entries oid output.association_files
            (false, []) (by simp) _ hmem
          exact absurd hnf.symm (assocFileEntry_ne_levelFileEntry n lvl f _)
        · rw [if_neg hr] at hmem
          simp at hmem
    · intro hex
      exact absurd (hiff.mpr hex) hc
    · intro _
      exact ⟨rfl, rfl⟩

/-- Witness for C3 at a concrete input: Object ID "100" is only a substring of
the longer cell value "5100301" in the Level 1 file, and is still reported as
appearing there. -/
theorem analyze_single_record_substring_witness :
    (∃ col ∈ [Column.mk "Code" true [Cell.str "5100301"]], ∃ cell ∈ col.cells,
        ∃ x y, (Cell.toStr cell).data = x ++ ("100" : String).data ++ y)
      ↔ levelFileEntry 1 "level1.csv"
          ∈ (analyze_single_record "100" (.str "U") (.str "1") none none
              ⟨[(1, ⟨some ⟨[⟨"Code", true, [.str "5100301"]⟩]⟩, some "level1.csv"⟩)], []⟩
              [("100", ⟨some 1, none, []⟩)]).appears_in :=
  (analyze_single_record_substring "100" (.str "U") (.str "1") none none
    ⟨[(1, ⟨some ⟨[⟨"Code", true, [.str "5100301"]⟩]⟩, some "level1.csv"⟩)], []⟩
    [("100", ⟨some 1, none, []⟩)] ⟨some 1, none, []⟩ 1
    ⟨some ⟨[⟨"Code", true, [.str "5100301"]⟩]⟩, some "level1.csv"⟩
    ⟨[⟨"Code", true, [.str "5100301"]⟩]⟩
    (by decide) rfl (by decide) rfl (by decide)).1

theorem alistHas_iff {κ α : Type} [DecidableEq κ] (l : List (κ × α)) (k : κ) :
    alistHas l k = true ↔ k ∈ l.map Prod.fst := by
  unfold alistHas
  rw [List.any_eq_true]
  constructor
  · rintro ⟨p, hp, he⟩
    rw [decide_eq_true_eq] at he
    exact he ▸ List.mem_map_of_mem _ hp
  · intro hk
    rw [List.mem_map] at hk
    obtain ⟨p, hp, he⟩ := hk
    exact ⟨p, hp, by rw [decide_eq_true_eq]; exact he⟩

theorem alistPut_fresh {κ α : Type} [DecidableEq κ] (l : List (κ × α)) (k : κ)
    (v : α) (h : k ∉ l.map Prod.fst) : alistPut l k v = l ++ [(k, v)] := by
  unfold alistPut
  rw [if_neg]
  intro hc
  exact h ((alistHas_iff l k).mp hc)

theorem nodup_append_single {α : Type} (l : List α) (k : α) (h : l.Nodup)
    (hk : k ∉ l) : (l ++ [k]).Nodup := by
  rw [List.nodup_append]
  refine ⟨h, by simp, ?_⟩
  intro x hx
  simp only [List.mem_singleton]
  intro he
  exact hk (he ▸ hx)

theorem bucketAddMain_inv (b : RecordBuckets) (k : String) (a : RecordAnalysis)
    (hinv : BucketInv b) (hfresh : k ∉ b.all_records.map Prod.fst) :
    BucketInv (bucketAddMain b k a)
    ∧ (bucketAddMain b k a).all_records.map Prod.fst
        = b.all_records.map Prod.fst ++ [k] := by
  obtain ⟨hnd, hs_sub, hi_sub, hdisj, hcov, hlen, hs_st, hi_st⟩ := hinv
  have hfs : k ∉ b.successful.map Prod.fst := fun hc => hfresh (hs_sub k hc)
  have hfi : k ∉ b.issues.map Prod.fst := fun hc => hfresh (hi_sub k hc)
  have hput : alistPut b.all_records k a = b.all_records ++ [(k, a)] :=
    alistPut_fresh _ _ _ hfresh
  by_cases hs : a.status = "SUCCESS"
  · have hb' : bucketAddMain b k a
        = ⟨b.all_records ++ [(k, a)], b.successful ++ [(k, a)], b.issues⟩ := by
      unfold bucketAddMain
      rw [if_pos hs, if_pos hs, hput, alistPut_fresh _ _ _ hfs]
    rw [hb']
    refine ⟨⟨?_, ?_, ?_, ?_, ?_, ?_, ?_, ?_⟩, by simp⟩
    · simp only [List.map_append, List.map_cons, List.map_nil]
      exact nodup_append_single _ k hnd hfresh
    · intro k'
      simp only [List.map_append, List.map_cons, List.map_nil, List.mem_append,
        List.mem_singleton]
      rintro (h | h)
      · exact Or.inl (hs_sub k' h)
      · exact Or.inr h
    · intro k'
      simp only [List.map_append, List.map_cons, List.map_nil, List.mem_append,
        List.mem_singleton]
      intro h
      exact Or.inl (hi_sub k' h)
    · intro k'
      simp only [List.map_append, List.map_cons, List.map_nil, List.mem_append,
        List.mem_singleton]
      rintro ⟨h1 | h1, h2⟩
      · exact hdisj k' ⟨h1, h2⟩
      · exact hfi (h1 ▸ h2)
    · intro k'
      simp only [List.map_append, List.map_cons, List.map_nil, List.mem_append,
        List.mem_singleton]
      rintro (h | h)
      · rcases hcov k' h with h' | h'
        · exact Or.inl (Or.inl h')
        · exact Or.inr h'
      · exact Or.inl (Or.inr h)
    · simp only [List.length_append, List.length_cons, List.length_nil]
      omega
    · intro p hp
      rw [List.mem_append, List.mem_singleton] at hp
      rcases hp with hp | hp
      · exact hs_st p hp
      · rw [hp]
        exact hs
    · exact hi_st
  · have hb' : bucketAddMain b k a
        = ⟨b.all_records ++ [(k, a)], b.successful, b.issues ++ [(k, a)]⟩ := by
      unfold bucketAddMain
      rw [if_neg hs, if_neg hs, hput, alistPut_fresh _ _ _ hfi]
    rw [hb']
    refine ⟨⟨?_, ?_, ?_, ?_, ?_, ?_, ?_, ?_⟩, by simp⟩
    · simp only [List.map_append, List.map_cons, List.map_nil]
      exact nodup_append_single _ k hnd hfresh
    · intro k'
      simp only [List.map_append, List.map_cons, List.map_nil, List.mem_append,
        List.mem_singleton]
      intro h
      exact Or.inl (hs_sub k' h)
    · intro k'
      simp only [List.map_append, List.map_cons, List.map_nil, List.mem_append,
        List.mem_singleton]
      rintro (h | h)
      · exact Or.inl (hi_sub k' h)
      · exact Or.inr h
    · intro k'
      simp only [List.map_append, List.map_cons, List.map_nil, List.mem_append,
        List.mem_singleton]
      rintro ⟨h1, h2 | h2⟩
      · exact hdisj k' ⟨h1, h2⟩
      · exact hfs (h2 ▸ h1)
    · intro k'
      simp only [List.map_append, List.map_cons, List.map_nil, List.mem_append,
        List.mem_singleton]
      rintro (h | h)
      · rcases hcov k' h with h' | h'
        · exact Or.inl h'
        · exact Or.inr (Or.inl h')
      · exact Or.inr (Or.inr h)
    · simp only [List.length_append, List.length_cons, List.length_nil]
      omega
    · exact hs_st
    · intro p hp
      rw [List.mem_append, List.mem_singleton] at hp
      rcases hp with hp | hp
      · exact hi_st p hp
      · rw [hp]
        exact hs

theorem bucketAddOrphan_inv (b : RecordBuckets) (k : String)
    (a : RecordAnalysis) (hinv : BucketInv b)
    (hfresh : k ∉ b.all_records.map Prod.fst) (hs : a.status ≠ "SUCCESS") :
    BucketInv (bucketAddOrphan b k a)
    ∧ (bucketAddOrphan b k a).all_records.map Prod.fst
        = b.all_records.map Prod.fst ++ [k] := by
  obtain ⟨hnd, hs_sub, hi_sub, hdisj, hcov, hlen, hs_st, hi_st⟩ := hinv
  have hfs : k ∉ b.successful.map Prod.fst := fun hc => hfresh (hs_sub k hc)
  have hfi : k ∉ b.issues.map Prod.fst := fun hc => hfresh (hi_sub k hc)
  have hb' : bucketAddOrphan b k a
      = ⟨b.all_records ++ [(k, a)], b.successful, b.issues ++ [(k, a)]⟩ := by
    unfold bucketAddOrphan
    rw [alistPut_fresh _ _ _ hfresh, alistPut_fresh _ _ _ hfi]
  rw [hb']
  refine ⟨⟨?_, ?_, ?_, ?_, ?_, ?_, ?_, ?_⟩, by simp⟩
  · simp only [List.map_append, List.map_cons, List.map_nil]
    exact nodup_append_single _ k hnd hfresh
  · intro k'
    simp only [List.map_append, List.map_cons, List.map_nil, List.mem_append,
      List.mem_singleton]
    intro h
    exact Or.inl (hs_sub k' h)
  · intro k'
    simp only [List.map_append, List.map_cons, List.map_nil, List.mem_append,
      List.mem_singleton]
    rintro (h | h)
    · exact Or.inl (hi_sub k' h)
    · exact Or.inr h
  · intro k'
    simp only [List.map_append, List.map_cons, List.map_nil, List.mem_append,
      List.mem_singleton]
    rintro ⟨h1, h2 | h2⟩
    · exact hdisj k' ⟨h1, h2⟩
    · exact hfs (h2 ▸ h1)
  · intro k'
    simp only [List.map_append, List.map_cons, List.map_nil, List.mem_append,
      List.mem_singleton]
    rintro (h | h)
    · rcases hcov k' h with h' | h'
      · exact Or.inl h'
      · exact Or.inr (Or.inl h')
    · exact Or.inr (Or.inr h)
  · simp only [List.length_append, List.length_cons, List.length_nil]
    omega
  · exact hs_st
  · intro p hp
    rw [List.mem_append, List.mem_singleton] at hp
    rcases hp with hp | hp
    · exact hi_st p hp
    · rw [hp]
      exact hs

theorem detectiveMain_fold_inv (st : PipelineState) :
    ∀ (rows : List (String × Cell × Cell)) (b : RecordBuckets),
      BucketInv b →
      (b.all_records.map Prod.fst ++ rows.map Prod.fst).Nodup →
      BucketInv ((rows.foldl (detectiveMainStep st) b)) := by
  intro rows
  induction rows with
  | nil => intro b hinv _; exact hinv
  | cons t rest ih =>
    intro b hinv hnd
    rw [List.foldl_cons]
    have hfresh : t.1 ∉ b.all_records.map Prod.fst := by
      rw [List.map_cons, List.nodup_append] at hnd
      intro hc
      exact hnd.2.2 hc (List.mem_cons_self _ _)
    obtain ⟨hinv', hkeys'⟩ := bucketAddMain_inv b t.1
      (analyze_single_record t.1 t.2.1 t.2.2 st.source_hrp1000 st.source_hrp1001
        st.generated_output_files st.hierarchy_structure) hinv hfresh
    apply ih _ hinv'
    show ((detectiveMainStep st b t).all_records.map Prod.fst
      ++ rest.map Prod.fst).Nodup
    rw [show (detectiveMainStep st b t).all_records.map Prod.fst
        = b.all_records.map Prod.fst ++ [t.1] from hkeys']
    rw [List.append_assoc, List.singleton_append]
    simpa using hnd

theorem detectiveOrphanStep_inv (st : PipelineState) (df : DataFrame)
    (b : RecordBuckets) (i : Nat) (hinv : BucketInv b) :
    BucketInv (detectiveOrphanStep st df b i) := by
  unfold detectiveOrphanStep
  have step1 : ∀ (b0 : RecordBuckets) (k ty : String), BucketInv b0 →
      BucketInv (if k ≠ "" && !(alistHas b0.all_records k) then
        bucketAddOrphan b0 k
          (analyze_orphaned_relationship_id k ty st.source_hrp1000 st.source_hrp1001)
      else b0) := by
    intro b0 k ty h0
    by_cases hg : (k ≠ "" && !(alistHas b0.all_records k)) = true
    · rw [if_pos hg]
      rw [Bool.and_eq_true, Bool.not_eq_true'] at hg
      have hfresh : k ∉ b0.all_records.map Prod.fst := by
        intro hc
        rw [← alistHas_iff] at hc
        rw [hc] at hg
        exact absurd hg.2 (by simp)
      have hstat : (analyze_orphaned_relationship_id k ty st.source_hrp1000
          st.source_hrp1001).status = "ERROR" := rfl
      exact (bucketAddOrphan_inv b0 k _ h0 hfresh (by rw [hstat]; decide)).1
    · rw [if_neg hg]
      exact h0
  exact step1 _ _ "Target object ID" (step1 b _ "Source ID" hinv)

theorem orphan_fold_inv (st : PipelineState) (df : DataFrame) :
    ∀ (idxs : List Nat) (b : RecordBuckets), BucketInv b →
      BucketInv (idxs.foldl (detectiveOrphanStep st df) b) := by
  intro idxs
  induction idxs with
  | nil => intro b hinv; exact hinv
  | cons i rest ih =>
    intro b hinv
    rw [List.foldl_cons]
    exact ih _ (detectiveOrphanStep_inv st df b i hinv)

theorem detectivePhase2_inv (st : PipelineState) (b : RecordBuckets)
    (hinv : BucketInv b) : BucketInv (detectivePhase2 st b) := by
  unfold detectivePhase2
  cases hdf : st.source_hrp1001 with
  | none => exact hinv
  | some df => exact orphan_fold_inv st df (List.range df.nrows) b hinv

theorem detectivePhase1_inv (st : PipelineState)
    (hids : ∀ df, st.source_hrp1000 = some df →
      ((hrp1000RowData df).map Prod.fst).Nodup) :
    BucketInv (detectivePhase1 st) := by
  have hempty : BucketInv ⟨[], [], []⟩ := by
    refine ⟨by simp, ?_, ?_, ?_, ?_, by simp, ?_, ?_⟩ <;> simp
  unfold detectivePhase1
  cases hdf : st.source_hrp1000 with
  | none => exact hempty
  | some df =>
    show BucketInv (if df.hasCol "Object ID" then
      (hrp1000RowData df).foldl (detectiveMainStep st) ⟨[], [], []⟩ else ⟨[], [], []⟩)
    by_cases hc : df.hasCol "Object ID"
    · rw [if_pos hc]
      apply detectiveMain_fold_inv st _ _ hempty
      simpa using hids df hdf
    · rw [if_neg hc]
      exact hempty

/-- Claim C2: when the Object ID values of the HRP1000 DataFrame (their string
forms, the keys the code uses) are pairwise distinct, generate_detective_report
partitions the analyzed records: every key of all_records lies in exactly one
of successful_transformations (status 'SUCCESS') and issues_found (every other
status, including 'WARNING' and the orphaned relationship ids), the reported
success_count plus issue_count equals total_records_analyzed, and success_rate
is success_count divided by total_records_analyzed times 100 (0 with no
records). -/
theorem generate_detective_report_partition (st : PipelineState)
    (hids : ∀ df, st.source_hrp1000 = some df →
      ((hrp1000RowData df).map Prod.fst).Nodup) :
    (∀ k, k ∈ (generate_detective_report st).all_records.map Prod.fst ↔
      (k ∈ (generate_detective_report st).successful_transformations.map Prod.fst
        ∨ k ∈ (generate_detective_report st).issues_found.map Prod.fst))
    ∧ (∀ k, ¬(k ∈ (generate_detective_report st).successful_transformations.map Prod.fst
        ∧ k ∈ (generate_detective_report st).issues_found.map Prod.fst))
    ∧ (generate_detective_report st).success_count
        + (generate_detective_report st).issue_count
        = (generate_detective_report st).total_records_analyzed
    ∧ (generate_detective_report st).success_rate
        = (if (generate_detective_report st).total_records_analyzed = 0 then 0
           else ((generate_detective_report st).success_count : ℚ)
             / (generate_detective_report st).total_records_analyzed * 100)
    ∧ (∀ p ∈ (generate_detective_report st).successful_transformations,
        p.2.status = "SUCCESS")
    ∧ (∀ p ∈ (generate_detective_report st).issues_found,
        p.2.status ≠ "SUCCESS") := by
  obtain ⟨hnd, hs_sub, hi_sub, hdisj, hcov, hlen, hs_st, hi_st⟩ :=
    detectivePhase2_inv st _ (detectivePhase1_inv st hids)
  refine ⟨?_, ?_, ?_, ?_, ?_, ?_⟩
  · intro k
    constructor
    · exact hcov k
    · rintro (h | h)
      · exact hs_sub k h
      · exact hi_sub k h
  · exact hdisj
  · exact hlen.symm
  · rfl
  · exact hs_st
  · exact hi_st

/-- Witness for C2 at a concrete state: two HRP1000 units (both ending up as
issues, the hierarchy being empty) plus two orphaned relationship ids. -/
theorem generate_detective_report_partition_witness :
    (generate_detective_report
        ⟨some ⟨[⟨"Object ID", true, [.str "1", .str "2"]⟩]⟩,
         some ⟨[⟨"Source ID", true, [.str "1", .str "9"]⟩,
                ⟨"Target object ID", true, [.str "3", .str "2"]⟩]⟩,
         ⟨[], []⟩, []⟩).success_count
      + (generate_detective_report
        ⟨some ⟨[⟨"Object ID", true, [.str "1", .str "2"]⟩]⟩,
         some ⟨[⟨"Source ID", true, [.str "1", .str "9"]⟩,
                ⟨"Target object ID", true, [.str "3", .str "2"]⟩]⟩,
         ⟨[], []⟩, []⟩).issue_count
      = (generate_detective_report
        ⟨some ⟨[⟨"Object ID", true, [.str "1", .str "2"]⟩]⟩,
         some ⟨[⟨"Source ID", true, [.str "1", .str "9"]⟩,
                ⟨"Target object ID", true, [.str "3", .str "2"]⟩]⟩,
         ⟨[], []⟩, []⟩).total_records_analyzed :=
  (generate_detective_report_partition
    ⟨some ⟨[⟨"Object ID", true, [.str "1", .str "2"]⟩]⟩,
     some ⟨[⟨"Source ID", true, [.str "1", .str "9"]⟩,
            ⟨"Target object ID", true, [.str "3", .str "2"]⟩]⟩,
     ⟨[], []⟩, []⟩
    (by intro df hdf; cases hdf; decide)).2.2.1

/-! ## Lemmas for the JSON codec: printing is inverted by parsing -/

theorem digitChar_spec (k : Nat) (h : k < 10) :
    (Char.ofNat (48 + k)).isDigit = true
    ∧ jdigitVal (Char.ofNat (48 + k)) = k := by
  interval_cases k <;> exact ⟨rfl, rfl⟩

theorem natChars_ne_nil (n : Nat) : natChars n ≠ [] := by
  unfold natChars
  by_cases h : n < 10
  · simp [h]
  · simp [h]

theorem natChars_digits (n : Nat) : ∀ c ∈ natChars n, c.isDigit = true := by
  induction n using Nat.strongRecOn with
  | _ n ih =>
    intro c hc
    unfold natChars at hc
    by_cases h : n < 10
    · rw [if_pos h] at hc
      rw [List.mem_singleton] at hc
      subst hc
      exact (digitChar_spec n h).1
    · rw [if_neg h] at hc
      rw [List.mem_append, List.mem_singleton] at hc
      rcases hc with hc | hc
      · exact ih (n / 10) (Nat.div_lt_self (by omega) (by omega)) c hc
      · subst hc
        exact (digitChar_spec (n % 10) (Nat.mod_lt _ (by omega))).1

theorem jparseNatAcc_cons_digit (acc : Nat) (c : Char) (rest : List Char)
    (h : c.isDigit = true) :
    jparseNatAcc acc (c :: rest) = jparseNatAcc (acc * 10 + jdigitVal c) rest := by
  unfold jparseNatAcc
  rw [if_pos h]
  cases rest <;> rfl

theorem jparseNatAcc_natChars (n : Nat) :
    ∀ (acc : Nat) (rest : List Char),
      jparseNatAcc acc (natChars n ++ rest)
        = jparseNatAcc (acc * 10 ^ (natChars n).length + n) rest := by
  induction n using Nat.strongRecOn with
  | _ n ih =>
    intro acc rest
    by_cases h : n < 10
    · rw [show natChars n = [Char.ofNat (48 + n)] from by
        conv_lhs => rw [natChars]
        rw [if_pos h]]
      rw [List.singleton_append,
        jparseNatAcc_cons_digit _ _ _ (digitChar_spec n h).1,
        (digitChar_spec n h).2]
      norm_num
    · have hsplit : natChars n = natChars (n / 10) ++ [Char.ofNat (48 + n % 10)] := by
        conv_lhs => rw [natChars]
        rw [if_neg h]
      rw [hsplit, List.append_assoc, List.singleton_append,
        ih (n / 10) (Nat.div_lt_self (by omega) (by omega)),
        jparseNatAcc_cons_digit _ _ _ (digitChar_spec (n % 10) (Nat.mod_lt _ (by omega))).1,
        (digitChar_spec (n % 10) (Nat.mod_lt _ (by omega))).2]
      have harith : (acc * 10 ^ (natChars (n / 10)).length + n / 10) * 10 + n % 10
          = acc * 10 ^ (natChars (n / 10) ++ [Char.ofNat (48 + n % 10)]).length + n := by
        rw [List.length_append, List.length_singleton, pow_succ]
        have := Nat.div_add_mod n 10
        ring_nf
        omega
      rw [harith]

theorem jparseNatAcc_stop (acc : Nat) (rest : List Char)
    (h : ∀ c, rest.head? = some c → c.isDigit = false) :
    jparseNatAcc acc rest = (acc, rest) := by
  cases rest with
  | nil => rfl
  | cons c t =>
    unfold jparseNatAcc
    rw [if_neg]
    rw [h c rfl]
    simp

theorem jparseNat_natChars (n : Nat) (rest : List Char)
    (h : ∀ c, rest.head? = some c → c.isDigit = false) :
    jparseNatAcc 0 (natChars n ++ rest) = (n, rest) := by
  rw [jparseNatAcc_natChars n 0 rest, jparseNatAcc_stop _ _ h]
  simp

theorem jparseStr_cons_plain (acc : List Char) (c : Char) (rest : List Char)
    (h1 : c ≠ '"') (h2 : c ≠ '\\') :
    jparseStr acc (c :: rest) = jparseStr (c :: acc) rest := by
  cases rest with
  | nil =>
    have hstep : jparseStr acc [c] =
        if c = '"' then some (⟨acc.reverse⟩, ([] : List Char))
        else if c = '\\' then none
        else jparseStr (c :: acc) [] := rfl
    rw [hstep, if_neg h1, if_neg h2]
  | cons e t =>
    have hstep : jparseStr acc (c :: e :: t) =
        if c = '"' then some (⟨acc.reverse⟩, e :: t)
        else if c = '\\' then
          (match junesc e with
           | some x => jparseStr (x :: acc) t
           | none => none)
        else jparseStr (c :: acc) (e :: t) := rfl
    rw [hstep, if_neg h1, if_neg h2]

theorem jparseStr_escape (l : List Char) :
    ∀ (acc rest : List Char),
      jparseStr acc (jescape l ++ '"' :: rest) = some (⟨acc.reverse ++ l⟩, rest) := by
  induction l with
  | nil =>
    intro acc rest
    show jparseStr acc ('"' :: rest) = _
    unfold jparseStr
    rw [if_pos rfl]
    simp
  | cons c t ih =>
    intro acc rest
    show jparseStr acc ((jescChar c ++ jescape t) ++ '"' :: rest) = _
    rw [List.append_assoc]
    by_cases hc : c = '"' ∨ c = '\\'
    · have hesc : jescChar c = ['\\', c] := by
        unfold jescChar
        rw [if_pos (by rcases hc with h | h <;> simp [h])]
      rw [hesc]
      show jparseStr acc ('\\' :: (c :: (jescape t ++ '"' :: rest))) = _
      have hu : junesc c = some c := by
        unfold junesc
        rw [if_pos (by rcases hc with h | h <;> simp [h])]
      have hstep : jparseStr acc ('\\' :: (c :: (jescape t ++ '"' :: rest)))
          = match junesc c with
            | some x => jparseStr (x :: acc) (jescape t ++ '"' :: rest)
            | none => none := rfl
      rw [hstep, hu]
      show jparseStr (c :: acc) (jescape t ++ '"' :: rest) = _
      rw [ih]
      simp
    · push_neg at hc
      have hesc : jescChar c = [c] := by
        unfold jescChar
        rw [if_neg (by simp [hc.1, hc.2])]
      rw [hesc]
      show jparseStr acc (c :: (jescape t ++ '"' :: rest)) = _
      rw [jparseStr_cons_plain acc c _ hc.1 hc.2, ih]
      simp

theorem digit_char_facts (c : Char) (h : c.isDigit = true) :
    jIsWs c = false ∧ c ≠ '"' ∧ c ≠ '[' ∧ c ≠ jlbrace ∧ c ≠ 'n' ∧ c ≠ 't'
    ∧ c ≠ 'f' ∧ c ≠ '-' ∧ c ≠ ']' ∧ c ≠ jrbrace ∧ c ≠ ',' := by
  refine ⟨?_, ?_, ?_, ?_, ?_, ?_, ?_, ?_, ?_, ?_, ?_⟩
  · unfold jIsWs
    have h1 : c ≠ ' ' := fun e => absurd (e ▸ h) (by decide)
    have h2 : c ≠ '\t' := fun e => absurd (e ▸ h) (by decide)
    have h3 : c ≠ '\n' := fun e => absurd (e ▸ h) (by decide)
    have h4 : c ≠ '\r' := fun e => absurd (e ▸ h) (by decide)
    simp [h1, h2, h3, h4]
  all_goals intro e
  · exact absurd (e ▸ h) (by decide)
  · exact absurd (e ▸ h) (by decide)
  · exact absurd (e ▸ h) (by decide)
  · exact absurd (e ▸ h) (by decide)
  · exact absurd (e ▸ h) (by decide)
  · exact absurd (e ▸ h) (by decide)
  · exact absurd (e ▸ h) (by decide)
  · exact absurd (e ▸ h) (by decide)
  · exact absurd (e ▸ h) (by decide)
  · exact absurd (e ▸ h) (by decide)

theorem jdelim_nil : jdelim [] := by
  intro c h
  cases h

theorem jdelim_cons (c : Char) (rest : List Char) (h : c.isDigit = false) :
    jdelim (c :: rest) := by
  intro d hd
  cases hd
  exact h

theorem jskipWs_cons (c : Char) (l : List Char) (h : jIsWs c = false) :
    jskipWs (c :: l) = c :: l := by
  simp [jskipWs, List.dropWhile, h]

theorem natChars_head (n : Nat) :
    ∃ c t, natChars n = c :: t ∧ c.isDigit = true := by
  cases hc : natChars n with
  | nil => exact absurd hc (natChars_ne_nil n)
  | cons c t =>
    refine ⟨c, t, rfl, ?_⟩
    exact natChars_digits n c (hc ▸ List.mem_cons_self c t)

theorem jprint_ne_nil (v : JValue) : jprint v ≠ [] := by
  cases v with
  | null => simp [jprint]
  | bool b => cases b <;> simp [jprint]
  | int n =>
    simp only [jprint, intChars]
    by_cases hn : n < 0
    · rw [if_pos hn]; simp
    · rw [if_neg hn]; exact natChars_ne_nil _
  | str s => simp [jprint]
  | arr xs => simp [jprint]
  | obj ms => simp [jprint]

theorem jprint_head (v : JValue) :
    ∃ c t, jprint v = c :: t ∧ jIsWs c = false ∧ c ≠ ']' := by
  cases v with
  | null => exact ⟨'n', _, rfl, by decide, by decide⟩
  | bool b => cases b
               <;> exact ⟨_, _, rfl, by decide, by decide⟩
  | int n =>
    simp only [jprint, intChars]
    by_cases hn : n < 0
    · rw [if_pos hn]
      exact ⟨'-', _, rfl, by decide, by decide⟩
    · rw [if_neg hn]
      obtain ⟨c, t, hct, hd⟩ := natChars_head n.natAbs
      refine ⟨c, t, hct, ?_, ?_⟩
      · obtain ⟨h1, -⟩ := digit_char_facts c hd
        exact h1
      · obtain ⟨-, -, -, -, -, -, -, -, h9, -⟩ := digit_char_facts c hd
        exact h9
  | str s => exact ⟨'"', _, rfl, by decide, by decide⟩
  | arr xs => exact ⟨'[', _, rfl, by decide, by decide⟩
  | obj ms => exact ⟨jlbrace, _, rfl, by decide, by decide⟩

theorem jprintElems_cons_ex (x : JValue) (xs : List JValue) :
    ∃ t, jprintElems (x :: xs) = jprint x ++ t := by
  cases xs with
  | nil => exact ⟨[], (List.append_nil _).symm⟩
  | cons y t => exact ⟨',' :: jprintElems (y :: t), rfl⟩

theorem jparse_str_step (fuel : Nat) (X : List Char) :
    jparse (fuel + 1) ('"' :: X) =
      (jparseStr [] X).map (fun p => (JValue.str p.1, p.2)) := rfl

theorem jparse_arr_step (fuel : Nat) (c2 : Char) (r3 : List Char)
    (h2 : jIsWs c2 = false) (h3 : c2 ≠ ']') :
    jparse (fuel + 1) ('[' :: c2 :: r3) =
      (jparseElems fuel (c2 :: r3)).map (fun p => (JValue.arr p.1, p.2)) := by
  have hws : jskipWs (c2 :: r3) = c2 :: r3 := jskipWs_cons _ _ h2
  have hstep : jparse (fuel + 1) ('[' :: c2 :: r3) =
      (match jskipWs (c2 :: r3) with
       | [] => none
       | d :: r => if d = ']' then some (.arr [], r)
                   else (jparseElems fuel (d :: r)).map
                     (fun p => (JValue.arr p.1, p.2))) := rfl
  rw [hstep, hws]
  show (if c2 = ']' then some (JValue.arr [], r3)
        else (jparseElems fuel (c2 :: r3)).map
          (fun p => (JValue.arr p.1, p.2))) = _
  rw [if_neg h3]

theorem jparse_succ (fuel : Nat) (l : List Char) :
    jparse (fuel + 1) l =
      (match jskipWs l with
       | [] => none
       | c :: rest =>
         if c = '"' then (jparseStr [] rest).map (fun p => (JValue.str p.1, p.2))
         else if c = '[' then
           match jskipWs rest with
           | [] => none
           | c2 :: r3 =>
             if c2 = ']' then some (JValue.arr [], r3)
             else (jparseElems fuel (c2 :: r3)).map (fun p => (JValue.arr p.1, p.2))
         else if c = jlbrace then
           match jskipWs rest with
           | [] => none
           | c2 :: r3 =>
             if c2 = jrbrace then some (JValue.obj [], r3)
             else (jparseMembers fuel (c2 :: r3)).map (fun p => (JValue.obj p.1, p.2))
         else if c = 'n' then
           match rest with
           | 'u' :: 'l' :: 'l' :: r => some (JValue.null, r)
           | _ => none
         else if c = 't' then
           match rest with
           | 'r' :: 'u' :: 'e' :: r => some (JValue.bool true, r)
           | _ => none
         else if c = 'f' then
           match rest with
           | 'a' :: 'l' :: 's' :: 'e' :: r => some (JValue.bool false, r)
           | _ => none
         else if c = '-' then
           match rest with
           | d :: _ =>
             if d.isDigit then
               let p := jparseNatAcc 0 rest
               some (JValue.int (-(p.1 : Int)), p.2)
             else none
           | [] => none
         else if c.isDigit then
           let p := jparseNatAcc 0 (c :: rest)
           some (JValue.int (p.1 : Int), p.2)
         else none) := rfl

theorem jparse_digit_step (fuel : Nat) (d : Char) (Z : List Char)
    (hd : d.isDigit = true) :
    jparse (fuel + 1) (d :: Z) =
      some (JValue.int ((jparseNatAcc 0 (d :: Z)).1 : Int),
            (jparseNatAcc 0 (d :: Z)).2) := by
  obtain ⟨hws, h1, h2, h3, h4, h5, h6, h7, -, -, -⟩ := digit_char_facts d hd
  have hws' : jskipWs (d :: Z) = d :: Z := jskipWs_cons _ _ hws
  rw [jparse_succ, hws']
  simp only [if_neg h1, if_neg h2, if_neg h3, if_neg h4, if_neg h5, if_neg h6,
    if_neg h7, hd, if_pos]

theorem jparseElems_succ (fuel : Nat) (l : List Char) :
    jparseElems (fuel + 1) l =
      (match jparse fuel l with
       | none => none
       | some (v, r) =>
         match jskipWs r with
         | ',' :: r2 => (jparseElems fuel r2).map (fun p => (v :: p.1, p.2))
         | ']' :: r2 => some ([v], r2)
         | _ => none) := rfl

theorem jparseMembers_succ (fuel : Nat) (l : List Char) :
    jparseMembers (fuel + 1) l =
      (match jskipWs l with
       | [] => none
       | c :: r =>
         if c = '"' then
           match jparseStr [] r with
           | none => none
           | some (k, r1) =>
             match jskipWs r1 with
             | ':' :: r2 =>
               match jparse fuel r2 with
               | none => none
               | some (v, r3) =>
                 match jskipWs r3 with
                 | [] => none
                 | c4 :: r4 =>
                   if c4 = ',' then
                     (jparseMembers fuel r4).map (fun p => ((k, v) :: p.1, p.2))
                   else if c4 = jrbrace then some ([(k, v)], r4)
                   else none
             | _ => none
         else none) := rfl

theorem jparse_obj_step (fuel : Nat) (c2 : Char) (r3 : List Char)
    (h2 : jIsWs c2 = false) (h3 : c2 ≠ jrbrace) :
    jparse (fuel + 1) (jlbrace :: c2 :: r3) =
      (jparseMembers fuel (c2 :: r3)).map (fun p => (JValue.obj p.1, p.2)) := by
  have hws : jskipWs (c2 :: r3) = c2 :: r3 := jskipWs_cons _ _ h2
  have hstep : jparse (fuel + 1) (jlbrace :: c2 :: r3) =
      (match jskipWs (c2 :: r3) with
       | [] => none
       | d :: r => if d = jrbrace then some (JValue.obj [], r)
                   else (jparseMembers fuel (d :: r)).map
                     (fun p => (JValue.obj p.1, p.2))) := rfl
  rw [hstep, hws]
  show (if c2 = jrbrace then some (JValue.obj [], r3)
        else (jparseMembers fuel (c2 :: r3)).map
          (fun p => (JValue.obj p.1, p.2))) = _
  rw [if_neg h3]

theorem jparseMembers_str_step (fuel : Nat) (X : List Char) :
    jparseMembers (fuel + 1) ('"' :: X) =
      (match jparseStr [] X with
       | none => none
       | some (k, r1) =>
         match jskipWs r1 with
         | ':' :: r2 =>
           match jparse fuel r2 with
           | none => none
           | some (v, r3) =>
             match jskipWs r3 with
             | [] => none
             | c4 :: r4 =>
               if c4 = ',' then
                 (jparseMembers fuel r4).map (fun p => ((k, v) :: p.1, p.2))
               else if c4 = jrbrace then some ([(k, v)], r4)
               else none
         | _ => none) := rfl

theorem jprintMembers_cons_ex (kv : String × JValue)
    (ms : List (String × JValue)) :
    ∃ t, jprintMembers (kv :: ms) = '"' :: t := by
  cases ms with
  | nil => exact ⟨_, rfl⟩
  | cons m t => exact ⟨_, rfl⟩

theorem jparse_jprint (fuel : Nat) :
    (∀ v rest, (jprint v).length < fuel → jdelim rest →
      jparse fuel (jprint v ++ rest) = some (v, rest)) ∧
    (∀ x xs rest, (jprintElems (x :: xs)).length + 1 < fuel →
      jparseElems fuel (jprintElems (x :: xs) ++ ']' :: rest)
        = some (x :: xs, rest)) ∧
    (∀ kv ms rest, (jprintMembers (kv :: ms)).length + 1 < fuel →
      jparseMembers fuel (jprintMembers (kv :: ms) ++ jrbrace :: rest)
        = some (kv :: ms, rest)) := by
  induction fuel with
  | zero =>
    exact ⟨fun v rest h _ => absurd h (by omega),
           fun x xs rest h => absurd h (by omega),
           fun kv ms rest h => absurd h (by omega)⟩
  | succ fuel ih =>
    obtain ⟨ihv, ihe, ihm⟩ := ih
    refine ⟨?_, ?_, ?_⟩
    · intro v rest hlen hrest
      cases v with
      | null => rfl
      | bool b => cases b <;> rfl
      | str s =>
        have hx : jprint (JValue.str s) ++ rest
            = '"' :: (jescape s.data ++ '"' :: rest) := by
          simp [jprint]
        rw [hx, jparse_str_step, jparseStr_escape s.data]
        rfl
      | int n =>
        rcases lt_or_le n 0 with hn | hn
        · have hi : jprint (JValue.int n) = '-' :: natChars n.natAbs := by
            simp only [jprint, intChars, if_pos hn]
          obtain ⟨d, t, hnat, hd⟩ := natChars_head n.natAbs
          have hx : jprint (JValue.int n) ++ rest = '-' :: d :: (t ++ rest) := by
            rw [hi, hnat]
            rfl
          rw [hx, jparse_succ]
          show (if d.isDigit then
                  some (JValue.int (-(((jparseNatAcc 0 (d :: (t ++ rest))).1 : Nat) : Int)),
                        (jparseNatAcc 0 (d :: (t ++ rest))).2)
                else none) = some (JValue.int n, rest)
          rw [if_pos hd]
          rw [show d :: (t ++ rest) = natChars n.natAbs ++ rest from by rw [hnat]; rfl]
          rw [jparseNat_natChars n.natAbs rest hrest]
          show some (JValue.int (-((n.natAbs : Nat) : Int)), rest) = some (JValue.int n, rest)
          have hneg : -(((n.natAbs : Nat) : Int)) = n := by omega
          rw [hneg]
        · have hi : jprint (JValue.int n) = natChars n.natAbs := by
            simp only [jprint, intChars, if_neg (not_lt.mpr hn)]
          obtain ⟨d, t, hnat, hd⟩ := natChars_head n.natAbs
          have hx : jprint (JValue.int n) ++ rest = d :: (t ++ rest) := by
            rw [hi, hnat]
            rfl
          rw [hx, jparse_digit_step fuel d (t ++ rest) hd]
          rw [show d :: (t ++ rest) = natChars n.natAbs ++ rest from by rw [hnat]; rfl]
          rw [jparseNat_natChars n.natAbs rest hrest]
          show some (JValue.int ((n.natAbs : Nat) : Int), rest) = some (JValue.int n, rest)
          rw [Int.natAbs_of_nonneg hn]
      | arr xs =>
        cases xs with
        | nil =>
          show jparse (fuel + 1) ('[' :: ']' :: rest) = some (JValue.arr [], rest)
          rfl
        | cons x xs' =>
          obtain ⟨c, t, hcx, hcw, hcne⟩ := jprint_head x
          obtain ⟨tl, hel⟩ := jprintElems_cons_ex x xs'
          have hlen' : (jprintElems (x :: xs')).length + 1 < fuel := by
            simp [jprint] at hlen
            omega
          have hx : jprint (JValue.arr (x :: xs')) ++ rest
              = '[' :: c :: (t ++ (tl ++ ']' :: rest)) := by
            simp [jprint, hel, hcx]
          rw [hx, jparse_arr_step fuel c (t ++ (tl ++ ']' :: rest)) hcw hcne]
          rw [show c :: (t ++ (tl ++ ']' :: rest))
                = jprintElems (x :: xs') ++ ']' :: rest from by rw [hel, hcx]; simp]
          rw [ihe x xs' rest hlen']
          rfl
      | obj ms =>
        cases ms with
        | nil =>
          show jparse (fuel + 1) (jlbrace :: jrbrace :: rest) = some (JValue.obj [], rest)
          rfl
        | cons kv ms' =>
          obtain ⟨mt, hmem⟩ := jprintMembers_cons_ex kv ms'
          have hlen' : (jprintMembers (kv :: ms')).length + 1 < fuel := by
            simp [jprint] at hlen
            omega
          have hx : jprint (JValue.obj (kv :: ms')) ++ rest
              = jlbrace :: '"' :: (mt ++ jrbrace :: rest) := by
            simp [jprint, hmem]
          rw [hx, jparse_obj_step fuel '"' (mt ++ jrbrace :: rest) (by decide) (by decide)]
          rw [show ('"' : Char) :: (mt ++ jrbrace :: rest)
                = jprintMembers (kv :: ms') ++ jrbrace :: rest from by rw [hmem]; rfl]
          rw [ihm kv ms' rest hlen']
          rfl
    · intro x xs rest hlen
      cases xs with
      | nil =>
        have hb : (jprint x).length < fuel := by
          simp only [jprintElems] at hlen
          omega
        have h1 := ihv x (']' :: rest) hb (jdelim_cons _ _ (by decide))
        show jparseElems (fuel + 1) (jprint x ++ ']' :: rest) = some ([x], rest)
        rw [jparseElems_succ, h1]
        rfl
      | cons y t =>
        have hxp : 0 < (jprint x).length := List.length_pos.mpr (jprint_ne_nil x)
        simp only [jprintElems, List.length_append, List.length_cons] at hlen
        have hb : (jprint x).length < fuel := by omega
        have hb2 : (jprintElems (y :: t)).length + 1 < fuel := by omega
        have hx : jprintElems (x :: y :: t) ++ ']' :: rest
            = jprint x ++ ',' :: (jprintElems (y :: t) ++ ']' :: rest) := by
          simp [jprintElems]
        rw [hx, jparseElems_succ,
           ihv x (',' :: (jprintElems (y :: t) ++ ']' :: rest)) hb
             (jdelim_cons _ _ (by decide))]
        show (jparseElems fuel (jprintElems (y :: t) ++ ']' :: rest)).map
              (fun p => (x :: p.1, p.2)) = some (x :: y :: t, rest)
        rw [ihe y t rest hb2]
        rfl
    · intro kv ms rest hlen
      obtain ⟨k, v⟩ := kv
      cases ms with
      | nil =>
        have hb : (jprint v).length < fuel := by
          simp [jprintMembers] at hlen
          omega
        have hx : jprintMembers [(k, v)] ++ jrbrace :: rest
            = '"' :: (jescape k.data ++ '"' :: (':' :: (jprint v ++ jrbrace :: rest))) := by
          simp [jprintMembers]
        rw [hx, jparseMembers_str_step, jparseStr_escape k.data]
        show (match jparse fuel (jprint v ++ jrbrace :: rest) with
              | none => none
              | some (v', r3) =>
                match jskipWs r3 with
                | [] => none
                | c4 :: r4 =>
                  if c4 = ',' then
                    (jparseMembers fuel r4).map (fun p => ((k, v') :: p.1, p.2))
                  else if c4 = jrbrace then some ([(k, v')], r4)
                  else none) = some ([(k, v)], rest)
        rw [ihv v (jrbrace :: rest) hb (jdelim_cons _ _ (by decide))]
        rfl
      | cons m t =>
        have hvp : 0 < (jprint v).length := List.length_pos.mpr (jprint_ne_nil v)
        simp only [jprintMembers, List.length_append, List.length_cons] at hlen
        have hb : (jprint v).length < fuel := by omega
        have hb2 : (jprintMembers (m :: t)).length + 1 < fuel := by omega
        have hx : jprintMembers ((k, v) :: m :: t) ++ jrbrace :: rest
            = '"' :: (jescape k.data ++ '"' :: (':' ::
                (jprint v ++ ',' :: (jprintMembers (m :: t) ++ jrbrace :: rest)))) := by
          simp [jprintMembers]
        rw [hx, jparseMembers_str_step, jparseStr_escape k.data]
        show (match jparse fuel (jprint v ++ ',' :: (jprintMembers (m :: t) ++ jrbrace :: rest)) with
              | none => none
              | some (v', r3) =>
                match jskipWs r3 with
                | [] => none
                | c4 :: r4 =>
                  if c4 = ',' then
                    (jparseMembers fuel r4).map (fun p => ((k, v') :: p.1, p.2))
                  else if c4 = jrbrace then some ([(k, v')], r4)
                  else none) = some ((k, v) :: m :: t, rest)
        rw [ihv v (',' :: (jprintMembers (m :: t) ++ jrbrace :: rest)) hb
             (jdelim_cons _ _ (by decide))]
        show (jparseMembers fuel (jprintMembers (m :: t) ++ jrbrace :: rest)).map
              (fun p => ((k, v) :: p.1, p.2)) = some ((k, v) :: m :: t, rest)
        rw [ihm m t rest hb2]
        rfl

theorem jparseDoc_jprint (v : JValue) : jparseDoc ⟨jprint v⟩ = some v := by
  have h := (jparse_jprint ((jprint v).length + 1)).1 v [] (by omega) jdelim_nil
  rw [List.append_nil] at h
  show (match jparse ((jprint v).length + 1) (jprint v) with
        | some (v', r) => if jskipWs r = [] then some v' else none
        | none => none) = some v
  rw [h]
  rfl

/-- Claim C5: configuration persistence round-trips through flat JSON files.
For `config_type` in `level`/`association`: saving a list with `save_config`
and then calling `load_config` returns exactly the saved list; `load_config`
returns `None` when the stored JSON document is not a list (including after
the second decode it applies to a stored string payload); and `load_config`
returns `None` when no config file exists for the type. -/
theorem save_load_roundtrip :
    (∀ (fs : List (String × String)) (config_type : String) (xs : List JValue),
      config_type = "level" ∨ config_type = "association" →
      load_config (save_config fs config_type (JValue.arr xs)) config_type
        = some (JValue.arr xs)) ∧
    (∀ (fs : List (String × String)) (config_type : String) (v : JValue),
      config_type = "level" ∨ config_type = "association" →
      alistLookup fs (configPath config_type) = some ⟨jprint v⟩ →
      (∀ xs, v ≠ JValue.arr xs) →
      (∀ s xs, v = JValue.str s → jparseDoc s ≠ some (JValue.arr xs)) →
      load_config fs config_type = none) ∧
    (∀ (fs : List (String × String)) (config_type : String),
      alistLookup fs (configPath config_type) = none →
      load_config fs config_type = none) := by
  refine ⟨?_, ?_, ?_⟩
  · intro fs t xs ht
    have h1 : alistLookup (save_config fs t (JValue.arr xs)) (configPath t)
        = some ⟨jprint (JValue.arr xs)⟩ :=
      alistLookup_put_self fs (configPath t) _
    have hb : (decide (t = "level") || decide (t = "association")) = true := by
      rcases ht with h | h <;> subst h <;> rfl
    simp [load_config, h1, jparseDoc_jprint, hb]
  · intro fs t v ht hlook hnarr hnstr
    have hb : (decide (t = "level") || decide (t = "association")) = true := by
      rcases ht with h | h <;> subst h <;> rfl
    cases v with
    | arr xs => exact absurd rfl (hnarr xs)
    | str s =>
      cases hp : jparseDoc s with
      | none => simp [load_config, hlook, jparseDoc_jprint, hb, hp]
      | some d =>
        cases d with
        | arr xs => exact absurd hp (hnstr s xs rfl)
        | null => simp [load_config, hlook, jparseDoc_jprint, hb, hp]
        | bool b => simp [load_config, hlook, jparseDoc_jprint, hb, hp]
        | int n => simp [load_config, hlook, jparseDoc_jprint, hb, hp]
        | str s2 => simp [load_config, hlook, jparseDoc_jprint, hb, hp]
        | obj ms => simp [load_config, hlook, jparseDoc_jprint, hb, hp]
    | null => simp [load_config, hlook, jparseDoc_jprint, hb]
    | bool b => simp [load_config, hlook, jparseDoc_jprint, hb]
    | int n => simp [load_config, hlook, jparseDoc_jprint, hb]
    | obj ms => simp [load_config, hlook, jparseDoc_jprint, hb]
  · intro fs t hlook
    simp [load_config, hlook]

/-- Witness for C5 at concrete inputs: a two-element list survives the
level-config round trip; a stored empty object loads as `None`; an empty
store loads as `None`. -/
theorem save_load_roundtrip_witness :
    load_config (save_config [] "level" (JValue.arr [JValue.int 1, JValue.str "a"]))
        "level" = some (JValue.arr [JValue.int 1, JValue.str "a"]) ∧
    load_config [(configPath "association", ⟨jprint (JValue.obj [])⟩)]
        "association" = none ∧
    load_config ([] : List (String × String)) "level" = none :=
  ⟨save_load_roundtrip.1 [] "level" [JValue.int 1, JValue.str "a"] (Or.inl rfl),
   save_load_roundtrip.2.1 [(configPath "association", ⟨jprint (JValue.obj [])⟩)]
     "association" (JValue.obj []) (Or.inr rfl) rfl
     (fun xs h => nomatch h)
     (fun s xs h => nomatch h),
   save_load_roundtrip.2.2 [] "level" rfl⟩
